import Mathlib

/-!
Shallow embedding of the two route modules of the Ai-describer Shopify app:
the content dashboard (`src/unnamed/part_000`) and the content generator
(`src/app/routes/app.generate_contnet.jsx`).  Pure string transformations are
modelled on `List Char`, stateful handlers as explicit state-passing functions,
and the two remote calls of the publish workflow as outcome parameters.  Every
definition mirrors one JavaScript function or code block of the repository;
the source location is noted in its doc comment.
-/

namespace AiDescriber

/-- Characters of the JavaScript whitespace class (the `\s` regex class and the
set trimmed by `String.prototype.trim`): space, tab, the line terminators, and
the Unicode space separators including NBSP and the BOM. -/
def jsSpace (c : Char) : Bool :=
  c = ' ' || c = '\t' || c = '\n' || c = '\r' ||
  c = '\x0b' || c = '\x0c' || c = '\u00A0' || c = '\u1680' ||
  (0x2000 ≤ c.toNat && c.toNat ≤ 0x200A) ||
  c = '\u2028' || c = '\u2029' || c = '\u202F' || c = '\u205F' ||
  c = '\u3000' || c = '\uFEFF'

/-- Scanner for the replacement `.replace(/<[^>]*>/g, '')` used both by
`isContentReverted` (dashboard loader, part_000 line 229) and by the
seo-description branch of `getGeneratedText` (generator route, line 533).
`some acc` means the scanner is inside a potential tag whose characters are
`acc` in reverse; if the input ends before a closing `>` appears, those
characters are emitted unchanged, exactly as the regex leaves an unclosed `<`
untouched. -/
def stripTagsGo : List Char → Option (List Char) → List Char
  | [], none => []
  | [], some acc => acc.reverse
  | c :: cs, none =>
      if c = '<' then stripTagsGo cs (some [c]) else c :: stripTagsGo cs none
  | c :: cs, some acc =>
      if c = '>' then stripTagsGo cs none else stripTagsGo cs (some (c :: acc))

/-- `s.replace(/<[^>]*>/g, '')` on a character list. -/
def stripTags (l : List Char) : List Char := stripTagsGo l none

/-- Remove trailing JavaScript whitespace (the tail half of `String.prototype.trim`). -/
def dropTrailingWs : List Char → List Char
  | [] => []
  | c :: cs =>
    match dropTrailingWs cs with
    | [] => if jsSpace c then [] else [c]
    | r => c :: r

/-- `String.prototype.trim` on a character list. -/
def trimChars (l : List Char) : List Char := dropTrailingWs (l.dropWhile jsSpace)

/-- JavaScript `a || b` on strings: the empty string is falsy.  `undefined` and
`null` are modelled as `""` throughout, which is how all consuming code treats
them (every use is truthiness-guarded). -/
def jsOr (a b : String) : String := if a = "" then b else a

/-- The normalization used by `isContentReverted` (part_000 lines 229-230):
`value.replace(/<[^>]*>/g, '').trim().toLowerCase()`. -/
def cleanContent (s : String) : String :=
  String.mk ((trimChars (stripTags s.toList)).map Char.toLower)

/-- `isContentReverted` from the dashboard loader (part_000 lines 227-232).
JavaScript returns `false` as soon as either argument is falsy (empty, `null`
or `undefined`); otherwise it compares the two normalized strings. -/
def isContentReverted (current original : String) : Bool :=
  if current = "" || original = "" then false
  else cleanContent current == cleanContent original

/-- One record returned by the content-origin store (`GET /contents`).  Fields
that JavaScript may leave `undefined` are modelled as `""`; the loader only
ever consumes them through truthiness guards and `||` chains, for which `""`
and `undefined` behave identically. -/
structure OriginalContentRecord where
  originId : String
  contentType : String
  originalContent : String
  originalContentHtml : String
deriving DecidableEq

/-- One catalog item (product or collection) as selected by the loader's
GraphQL queries.  `seoTitle`/`seoDescription` model `seo?.title`/
`seo?.description` with `""` for an absent field, and `image` models
`featuredImage?.url` (products) or `image?.url` (collections). -/
structure CatalogItem where
  id : String
  title : String
  status : String
  description : String
  descriptionHtml : String
  seoTitle : String
  seoDescription : String
  updatedAt : String
  image : String
deriving DecidableEq

/-- One dashboard row, the object literal built per item by the loader
(part_000 lines 256-279 for products, 302-325 for collections). -/
structure DashboardRow where
  id : String
  title : String
  type : String
  status : String
  currentDescription : String
  currentDescriptionHtml : String
  currentSeoTitle : String
  currentSeoDescription : String
  hasAiDescription : Bool
  hasAiSeo : Bool
  originalDescription : String
  originalSeoDescription : String
  hasOriginalContent : Bool
  updatedAt : String
  image : String
  isDescriptionReverted : Bool
  isSeoReverted : Bool
deriving DecidableEq

/-- The two `originalContents.find(...)` lookups performed per item
(part_000 lines 236-237 and 282-283). -/
def findRecord (originalContents : List OriginalContentRecord) (id kind : String) :
    Option OriginalContentRecord :=
  originalContents.find? (fun oc => oc.originId == id && oc.contentType == kind)

/-- `originalContent?.originalContentHtml || originalContent?.originalContent`
(part_000 lines 246, 271, 292, 317). -/
def recordHtmlOrPlain (oc : OriginalContentRecord) : String :=
  jsOr oc.originalContentHtml oc.originalContent

/-- The per-product branch of the loader's `allItems` construction
(part_000 lines 235-280): `null` (dropped by `.filter(Boolean)`) when neither
content kind has a record, otherwise the dashboard row literal. -/
def buildProductRow (originalContents : List OriginalContentRecord)
    (product : CatalogItem) : Option DashboardRow :=
  let originalContent := findRecord originalContents product.id "description"
  let originalseoContent := findRecord originalContents product.id "seo-description"
  if originalContent.isNone && originalseoContent.isNone then none else
  some {
    id := product.id
    title := product.title
    type := "product"
    status := product.status
    currentDescription := product.description
    currentDescriptionHtml := product.descriptionHtml
    currentSeoTitle := product.seoTitle
    currentSeoDescription := product.seoDescription
    hasAiDescription := originalContent.isSome
    hasAiSeo := originalseoContent.isSome
    originalDescription :=
      match originalContent with
      | some oc => recordHtmlOrPlain oc
      | none => ""
    originalSeoDescription :=
      match originalseoContent with
      | some os => os.originalContent
      | none => ""
    hasOriginalContent := originalContent.isSome || originalseoContent.isSome
    updatedAt := product.updatedAt
    image := product.image
    isDescriptionReverted :=
      match originalContent with
      | some oc => isContentReverted product.descriptionHtml (recordHtmlOrPlain oc)
      | none => false
    isSeoReverted :=
      match originalseoContent with
      | some os => isContentReverted product.seoDescription (jsOr os.originalContent "")
      | none => false }

/-- The per-collection branch of the loader's `allItems` construction
(part_000 lines 281-326); identical joins, with `type: 'collection'` and a
hard-coded `status: 'active'`. -/
def buildCollectionRow (originalContents : List OriginalContentRecord)
    (collection : CatalogItem) : Option DashboardRow :=
  let originalContent := findRecord originalContents collection.id "description"
  let originalseoContent := findRecord originalContents collection.id "seo-description"
  if originalContent.isNone && originalseoContent.isNone then none else
  some {
    id := collection.id
    title := collection.title
    type := "collection"
    status := "active"
    currentDescription := collection.description
    currentDescriptionHtml := collection.descriptionHtml
    currentSeoTitle := collection.seoTitle
    currentSeoDescription := collection.seoDescription
    hasAiDescription := originalContent.isSome
    hasAiSeo := originalseoContent.isSome
    originalDescription :=
      match originalContent with
      | some oc => recordHtmlOrPlain oc
      | none => ""
    originalSeoDescription :=
      match originalseoContent with
      | some os => os.originalContent
      | none => ""
    hasOriginalContent := originalContent.isSome || originalseoContent.isSome
    updatedAt := collection.updatedAt
    image := collection.image
    isDescriptionReverted :=
      match originalContent with
      | some oc => isContentReverted collection.descriptionHtml (recordHtmlOrPlain oc)
      | none => false
    isSeoReverted :=
      match originalseoContent with
      | some os => isContentReverted collection.seoDescription (jsOr os.originalContent "")
      | none => false }

/-- The loader's returned object (part_000 lines 329-341), minus the two
debugging fields (`endpoint`, `originalContentsCount`) that carry no item
data.  Note that `productCount`/`collectionCount` test only
`oc.originId === p.id` with no content-kind constraint, while row membership
requires a record of kind `description` or `seo-description`. -/
structure LoaderData where
  items : List DashboardRow
  totalItems : Nat
  productCount : Nat
  collectionCount : Nat
  modifiedCount : Nat
deriving DecidableEq

/-- The dashboard loader's reconciliation and counting (part_000 lines 234-341),
parameterized by the already-fetched catalog lists and content-store records. -/
def loader (products collections : List CatalogItem)
    (originalContents : List OriginalContentRecord) : LoaderData :=
  let allItems :=
    products.filterMap (buildProductRow originalContents) ++
    collections.filterMap (buildCollectionRow originalContents)
  { items := allItems
    totalItems := allItems.length
    productCount := (products.filter (fun p =>
      originalContents.any (fun oc => oc.originId == p.id))).length
    collectionCount := (collections.filter (fun c =>
      originalContents.any (fun oc => oc.originId == c.id))).length
    modifiedCount := allItems.length }

/-- The AI-service response as shape-sniffed by `getGeneratedText`
(generator route, lines 517-523): a plain string is used verbatim, an object
with a string `message` contributes that message, and any other value is
serialized (`JSON.stringify(response?.message || response || "", null, 2)`);
the `other` constructor carries that serialized text. -/
inductive AiResponse where
  | str (s : String)
  | withMessage (message : String)
  | other (serialized : String)
deriving DecidableEq

/-- The string `getGeneratedText` starts from, per its shape sniffing. -/
def extractText : AiResponse → String
  | .str s => s
  | .withMessage m => m
  | .other serialized => serialized

/-- Scanner for `.replace(/,,/g, " ")` (generator route, lines 526 and 536).
The flag records a pending comma: a second comma completes the pair and both
are replaced by one space; any other following character flushes the pending
comma unchanged, matching the regex's non-overlapping left-to-right scan. -/
def replDoubleCommaGo : List Char → Bool → List Char
  | [], false => []
  | [], true => [',']
  | c :: cs, false =>
      if c = ',' then replDoubleCommaGo cs true else c :: replDoubleCommaGo cs false
  | c :: cs, true =>
      if c = ',' then ' ' :: replDoubleCommaGo cs false
      else ',' :: c :: replDoubleCommaGo cs false

/-- `s.replace(/,,/g, " ")` on a character list. -/
def replDoubleComma (l : List Char) : List Char := replDoubleCommaGo l false

/-- Scanner for `.replace(/,\s*/g, " ")` (generator route, lines 527 and 537).
When the flag is set the scanner is consuming the greedy whitespace run that
follows a comma already replaced by a space. -/
def replCommaWsGo : List Char → Bool → List Char
  | [], _ => []
  | c :: cs, true =>
      if jsSpace c then replCommaWsGo cs true
      else if c = ',' then ' ' :: replCommaWsGo cs true
      else c :: replCommaWsGo cs false
  | c :: cs, false =>
      if c = ',' then ' ' :: replCommaWsGo cs true
      else c :: replCommaWsGo cs false

/-- `s.replace(/,\s*/g, " ")` on a character list. -/
def replCommaWs (l : List Char) : List Char := replCommaWsGo l false

/-- `.replace(/‚Äû|"|"|"|"/g, "")` (generator route, lines 528 and 538).  The
source file's first alternative is literally the three characters U+201A,
U+00C4, U+00FB (a mojibake rendering of a low double quotation mark); the
remaining four alternatives are all the plain ASCII double quote. -/
def removeQuotes : List Char → List Char
  | '‚' :: 'Ä' :: 'û' :: cs => removeQuotes cs
  | '"' :: cs => removeQuotes cs
  | c :: cs => c :: removeQuotes cs
  | [] => []

/-- `.replace(/\[|\]/g, "")` (generator route, lines 529 and 539). -/
def removeBrackets (l : List Char) : List Char :=
  l.filter (fun c => !(c = '[' || c = ']'))

/-- The four replacements applied to every response before branching on the
content type, and repeated inside the seo-description branch (generator
route, lines 526-529 and 536-539). -/
def cleanupBasic (l : List Char) : List Char :=
  removeBrackets (removeQuotes (replCommaWs (replDoubleComma l)))

/-- Scanner for `.replace(/\\n/g, ' ')` (generator route, line 534): the
two-character sequence backslash-then-n becomes one space.  The flag records
a pending backslash. -/
def replBackslashNGo : List Char → Bool → List Char
  | [], false => []
  | [], true => ['\\']
  | c :: cs, false =>
      if c = '\\' then replBackslashNGo cs true else c :: replBackslashNGo cs false
  | c :: cs, true =>
      if c = 'n' then ' ' :: replBackslashNGo cs false
      else if c = '\\' then '\\' :: replBackslashNGo cs true
      else '\\' :: c :: replBackslashNGo cs false

/-- `s.replace(/\\n/g, ' ')` on a character list. -/
def replBackslashN (l : List Char) : List Char := replBackslashNGo l false

/-- `.replace(/\\/g, '')` (generator route, line 535). -/
def removeBackslash (l : List Char) : List Char :=
  l.filter (fun c => !(c = '\\'))

/-- Scanner for `.replace(/\s+/g, ' ')` (generator route, line 540): each
maximal whitespace run becomes one space.  The flag records that the scanner
is inside a run whose space has already been emitted. -/
def collapseWsGo : List Char → Bool → List Char
  | [], _ => []
  | c :: cs, true =>
      if jsSpace c then collapseWsGo cs true else c :: collapseWsGo cs false
  | c :: cs, false =>
      if jsSpace c then ' ' :: collapseWsGo cs true else c :: collapseWsGo cs false

/-- `s.replace(/\s+/g, ' ')` on a character list. -/
def collapseWs (l : List Char) : List Char := collapseWsGo l false

/-- The whole seo-description branch of `getGeneratedText` (generator route,
lines 532-541): strip markup tags, collapse literal `\n` sequences and
backslashes, repeat the basic cleanup, then `trim().replace(/\s+/g, ' ')`. -/
def seoCleanList (l : List Char) : List Char :=
  collapseWs (trimChars (cleanupBasic (removeBackslash (replBackslashN (stripTags l)))))

/-- Characters matched by the regex `.` (dot without the `s` flag): everything
except the four line terminators. -/
def isDotChar (c : Char) : Bool :=
  !(c = '\n' || c = '\r' || c = '\u2028' || c = '\u2029')

/-- Scanner computing simultaneously `result.match(/‚Ä¢.+/g)` and
`result.replace(/‚Ä¢.+/g, "")` (generator route, lines 544 and 548): the first
component is the text with the matches removed, the second the list of
matches.  The bullet marker in the source file is literally the three
characters U+201A, U+00C4, U+00A2 (a mojibake rendering of the bullet sign
U+2022, which the pattern therefore does not match).  `some acc` means the
scanner is inside a match whose characters are `acc` in reverse; a match
needs the marker followed by at least one non-terminator character and then
extends greedily to the end of the line. -/
def scanGo : List Char → Option (List Char) → List Char × List (List Char)
  | [], none => ([], [])
  | [], some acc => ([], [acc.reverse])
  | c :: cs, some acc =>
      if isDotChar c then scanGo cs (some (c :: acc))
      else
        let p := scanGo cs none
        (c :: p.1, acc.reverse :: p.2)
  | '‚' :: 'Ä' :: '¢' :: d :: rest, none =>
      if isDotChar d then scanGo rest (some [d, '¢', 'Ä', '‚'])
      else
        let p := scanGo (d :: rest) none
        ('‚' :: 'Ä' :: '¢' :: p.1, p.2)
  | c :: cs, none =>
      let p := scanGo cs none
      (c :: p.1, p.2)

/-- `point.replace(/‚Ä¢\s*/, "")` (generator route, line 546): remove the
first occurrence of the bullet-marker sequence and the whitespace run that
follows it. -/
def stripFirstBulletWs : List Char → List Char
  | '‚' :: 'Ä' :: '¢' :: rest => rest.dropWhile jsSpace
  | c :: cs => c :: stripFirstBulletWs cs
  | [] => []

/-- The list block appended when bullet matches exist (generator route,
lines 546-549). -/
def ulBlock (bulletPoints : List (List Char)) : List Char :=
  "<ul>".toList ++
    (bulletPoints.map
      (fun point => "<li>".toList ++ stripFirstBulletWs point ++ "</li>".toList)).flatten ++
    "</ul>".toList

/-- `result.split("\n")` on a character list, with JavaScript's convention
that the empty string splits to one empty segment. -/
def splitNl : List Char → List (List Char)
  | [] => [[]]
  | '\n' :: cs => [] :: splitNl cs
  | c :: cs =>
    match splitNl cs with
    | h :: t => (c :: h) :: t
    | [] => [[c]]

/-- The paragraph stage of the description branch (generator route, lines
552-557): split on line breaks, trim each segment, drop empty segments and
segments starting with `<li>`, wrap the rest in `<p>` blocks and concatenate. -/
def joinParagraphs (l : List Char) : List Char :=
  ((((splitNl l).map trimChars).filter
      (fun para => !para.isEmpty && !(("<li>".toList).isPrefixOf para))).map
    (fun para => "<p>".toList ++ para ++ "</p>".toList)).flatten

/-- The description branch of `getGeneratedText` (generator route, lines
543-559): if bullet matches exist, remove them from the text and append the
list block, then run the paragraph stage over the result. -/
def descriptionFormat (l : List Char) : List Char :=
  let scanned := scanGo l none
  let withList := if scanned.2.isEmpty then l else scanned.1 ++ ulBlock scanned.2
  joinParagraphs withList

/-- `getGeneratedText(response, contentType)` (generator route, lines
517-560).  The seo-description test also consults the component state's
content type (`contentType === "seo-description" || state.contentType ===
"seo-description"`), modelled by the second string argument. -/
def getGeneratedText (response : AiResponse) (contentType stateContentType : String) :
    String :=
  let result := cleanupBasic (extractText response).toList
  if contentType = "seo-description" || stateContentType = "seo-description" then
    String.mk (seoCleanList result)
  else
    String.mk (descriptionFormat result)

/-- The `seo` subobject of a catalog item in the generator route's loader
data; both fields may be absent. -/
structure SeoInfo where
  title : Option String
  description : Option String
deriving DecidableEq

/-- The item held in `state.selectedItem` on the generator page. -/
structure SelectedItem where
  id : String
  title : String
  description : String
  descriptionHtml : String
  seo : Option SeoInfo
deriving DecidableEq

/-- The slice of the generator page's `state` object (generator route, lines
468-482) read and written by the publish workflow. -/
structure SessionState where
  pageType : String
  contentType : String
  selectedItem : Option SelectedItem
  seoKeywords : String
  apiResponse : Option AiResponse
  error : Option String
  editedContent : String
  isPublishing : Bool
  successMessage : Option String
deriving DecidableEq

/-- JavaScript truthiness test `!state.apiResponse`: the field is `null`
initially (`none`) and can hold a plain string after a saved edit, for which
only the empty string is falsy. -/
def aiFalsy : Option AiResponse → Bool
  | none => true
  | some (.str s) => s = ""
  | some _ => false

/-- The outcome of one `fetch` call as observed by `handlePublish`: the
response was ok, the response was received but not ok, the fetch itself threw,
or the response was ok but reading its JSON body threw. -/
inductive FetchOutcome where
  | ok
  | httpError (status : Nat) (statusText : String)
  | thrown (message : String)
  | okBadJson (message : String)
deriving DecidableEq

/-- The payload POSTed to the content-store `POST /content` endpoint
(generator route, lines 766-771). -/
structure ExternalPayload where
  originalContent : String
  contentType : String
  contentOrigin : String
  originId : String
deriving DecidableEq

/-- The payload sent to this route's own `updateContent` action (generator
route, lines 793-804). -/
structure UpdatePayload where
  action : String
  itemId : String
  pageType : String
  description : Option String
  seoDescription : Option String
deriving DecidableEq

/-- The observable result of one `handlePublish` run: the final component
state, the toasts shown as (message, isError) pairs, whether each of the two
network calls was issued, and the payloads sent. -/
structure PublishResult where
  state : SessionState
  toasts : List (String × Bool)
  externalRequested : Bool
  shopifyRequested : Bool
  externalPayload : Option ExternalPayload
  updatePayload : Option UpdatePayload
deriving DecidableEq

/-- `state.editedContent || getGeneratedText(state.apiResponse, state.contentType)`
(generator route, line 749).  The fallback response argument is only consulted
when `apiResponse` is non-null, because the publish guard has already rejected
the state in which both it and `editedContent` are empty. -/
def publishContent (st : SessionState) : String :=
  if st.editedContent = "" then
    getGeneratedText (st.apiResponse.getD (.str "")) st.contentType st.contentType
  else st.editedContent

/-- The pre-publish content captured as the baseline (generator route, lines
752-761): `seo?.description || ""` for SEO, else
`descriptionHtml || description || ""`. -/
def oldContentOf (st : SessionState) (item : SelectedItem) : String :=
  if st.contentType = "seo-description" then
    (item.seo.bind fun s => s.description).getD ""
  else jsOr item.descriptionHtml item.description

/-- The optimistic local update applied to the selected item once the
content-store call has succeeded (generator route, lines 808-817). -/
def applyOptimisticUpdate (item : SelectedItem) (contentType generated : String) :
    SelectedItem :=
  if contentType = "seo-description" then
    { item with seo := some { title := item.seo.bind fun s => s.title
                              description := some generated } }
  else
    { item with description := generated, descriptionHtml := generated }

/-- `handlePublish` (generator route, lines 727-867), parameterized by the
outcomes of its two network calls: the content-store baseline POST and the
best-effort call to this route's own `updateContent` action.  The second
outcome is deliberately unused because the source only ever logs it (lines
843-856): neither branch of its status check nor its catch block touches the
component state or shows a toast. -/
def handlePublish (st : SessionState) (externalOutcome shopifyOutcome : FetchOutcome) :
    PublishResult :=
  match st.selectedItem with
  | none =>
      { state := { st with error := some "Please select a product or collection to publish content." }
        toasts := [], externalRequested := false, shopifyRequested := false
        externalPayload := none, updatePayload := none }
  | some item =>
      if aiFalsy st.apiResponse && st.editedContent = "" then
        { state := { st with error := some "Please generate content before publishing." }
          toasts := [], externalRequested := false, shopifyRequested := false
          externalPayload := none, updatePayload := none }
      else
        let st1 := { st with isPublishing := true, error := none, successMessage := none }
        let generatedContent := publishContent st
        let payload : ExternalPayload :=
          { originalContent := oldContentOf st item
            contentType := if st.contentType = "seo-description" then "seo-description" else "description"
            contentOrigin := st.pageType
            originId := item.id }
        let failWith : String → PublishResult := fun msg =>
          { state := { st1 with
              error := some (jsOr msg "Failed to publish content. Please try again.")
              isPublishing := false }
            toasts := [("Failed to publish content. Please try again.", true)]
            externalRequested := true, shopifyRequested := false
            externalPayload := some payload, updatePayload := none }
        match externalOutcome with
        | .httpError status statusText =>
            failWith ("External API request failed: " ++ toString status ++ " " ++ statusText)
        | .thrown msg => failWith msg
        | .okBadJson msg => failWith msg
        | .ok =>
            let updatePayload : UpdatePayload :=
              { action := "updateContent", itemId := item.id, pageType := st.pageType
                description :=
                  if st.contentType = "seo-description" then none else some generatedContent
                seoDescription :=
                  if st.contentType = "seo-description" then some generatedContent else none }
            let updatedItem := applyOptimisticUpdate item st.contentType generatedContent
            let label :=
              if st.contentType = "seo-description" then "SEO meta description" else "description"
            { state := { st1 with selectedItem := some updatedItem, isPublishing := false }
              toasts := [(label ++ " published successfully for " ++ item.title ++ "!", false)]
              externalRequested := true, shopifyRequested := true
              externalPayload := some payload, updatePayload := some updatePayload }

/-- A revert command object: both the `fetcher.submit` payload built by the
dashboard (part_000 lines 899-908, 927-936) and the JSON body consumed by the
dashboard route's `action` (line 349). -/
structure RevertRequest where
  action : String
  itemId : String
  itemType : String
  originalContent : String
  contentType : String
deriving DecidableEq

/-- The observable effect of one revert-button click: the toast shown as a
(message, isError) pair, the submitted payload if any, and the `reverting`
spinner key if one was set. -/
structure RevertUiResult where
  toast : Option (String × Bool)
  submission : Option RevertRequest
  reverting : Option String
deriving DecidableEq

/-- `handleRevertDescription` (part_000 lines 883-909). -/
def handleRevertDescription (item : DashboardRow) : RevertUiResult :=
  if item.isDescriptionReverted then
    { toast := some ("Description has already been reverted to original content", false)
      submission := none, reverting := none }
  else if !item.hasAiDescription || item.originalDescription = "" then
    { toast := some ("No original description available to revert", true)
      submission := none, reverting := none }
  else
    { toast := none
      submission := some { action := "revert", itemId := item.id, itemType := item.type
                           originalContent := item.originalDescription
                           contentType := "description" }
      reverting := some (item.id ++ "-description") }

/-- `handleRevertSeo` (part_000 lines 911-937). -/
def handleRevertSeo (item : DashboardRow) : RevertUiResult :=
  if item.isSeoReverted then
    { toast := some ("SEO description has already been reverted to original content", false)
      submission := none, reverting := none }
  else if !item.hasAiSeo || item.originalSeoDescription = "" then
    { toast := some ("No original SEO description available to revert", true)
      submission := none, reverting := none }
  else
    { toast := none
      submission := some { action := "revert", itemId := item.id, itemType := item.type
                           originalContent := item.originalSeoDescription
                           contentType := "seo" }
      reverting := some (item.id ++ "-seo") }

/-- A field-level user error reported by the catalog API. -/
structure UserError where
  field : String
  message : String
deriving DecidableEq

/-- Whether the GraphQL document chosen by the revert action for the given
item type and content kind selects the `userErrors` field (part_000 lines
361-476).  Three of the four documents select it; the collection + seo
document (lines 450-463) omits it.  `none` means no branch assigns a mutation
at all, leaving `response` undefined. -/
def mutationSelectsUserErrors (itemType contentType : String) : Option Bool :=
  if itemType = "product" then
    if contentType = "description" then some true
    else if contentType = "seo" then some true
    else none
  else if itemType = "collection" then
    if contentType = "description" then some true
    else if contentType = "seo" then some false
    else none
  else none

/-- The HTTP response of the revert action: status, the `success` flag, and
the optional `message`, `error` and `errors` payload fields. -/
structure ActionResponse where
  status : Nat
  success : Bool
  message : Option String
  error : Option String
  errors : Option (List UserError)
deriving DecidableEq

/-- `itemType.charAt(0).toUpperCase() + itemType.slice(1)` (part_000 line 499). -/
def jsCapitalize (s : String) : String :=
  match s.toList with
  | [] => ""
  | c :: cs => String.mk (c.toUpper :: cs)

/-- The dashboard route's revert `action` (part_000 lines 344-514),
parameterized by the user errors the catalog API would report for the issued
mutation.  The second component records whether a catalog mutation was
executed.  When the chosen document omits `userErrors`, the mutation runs but
reading `.length` on the missing field (line 481) throws a `TypeError` that
the surrounding catch turns into a 500 `{success: false, error: ...}` response
(lines 504-513); the thrown message text is runtime-dependent and modelled as
`none` here, as is the message of the undefined-response case. -/
def revertAction (body : RevertRequest) (serverUserErrors : List UserError) :
    ActionResponse × Bool :=
  if body.action ≠ "revert" ∨ body.itemId = "" ∨ body.itemType = "" ∨ body.originalContent = "" then
    ({ status := 400, success := false, message := none
       error := some "Invalid request parameters - missing originalContent"
       errors := none }, false)
  else
    match mutationSelectsUserErrors body.itemType body.contentType with
    | none => ({ status := 500, success := false, message := none, error := none, errors := none }, false)
    | some true =>
        if serverUserErrors.length > 0 then
          ({ status := 400, success := false, message := none, error := none
             errors := some serverUserErrors }, true)
        else
          ({ status := 200, success := true
             message := some (jsCapitalize body.itemType ++ " " ++ body.contentType ++
               " reverted successfully to original content.")
             error := none, errors := none }, true)
    | some false =>
        ({ status := 500, success := false, message := none, error := none, errors := none }, true)

/-- One edge of a GraphQL connection page. -/
structure PageEdge (α : Type) where
  cursor : Nat
  node : α
deriving DecidableEq

/-- One connection page: the edges plus `pageInfo.hasNextPage`. -/
structure GraphPage (α : Type) where
  edges : List (PageEdge α)
  hasNextPage : Bool
deriving DecidableEq

/-- Edges carrying consecutive integer cursors starting at `start`. -/
def mkEdges {α : Type} (start : Nat) : List α → List (PageEdge α)
  | [] => []
  | a :: rest => ⟨start, a⟩ :: mkEdges (start + 1) rest

/-- A synthetic cursor-paged source over `items` with page size `P`: from the
position following the given cursor it serves the next `P` items, using each
item's position as its cursor, and reports `hasNextPage` correctly (more items
exist after this page). -/
def syntheticServer {α : Type} (items : List α) (P : Nat) (after : Option Nat) :
    GraphPage α :=
  let start := match after with | none => 0 | some c => c + 1
  { edges := mkEdges start ((items.drop start).take P)
    hasNextPage := decide (start + P < items.length) }

/-- The `while (hasNextPage)` loop of `fetchPaginated` (generator route, lines
37-54; the dashboard copy at part_000 lines 57-84 differs only by a
catch-and-stop hardening that an error-free source never triggers): request a
page, append its nodes, set `afterCursor` to the last edge's cursor (or null
when the page is empty), and continue while the server reports more pages.
`fuel` bounds the number of requests so the loop is a total function; `none`
means the fuel ran out first.  The result also records the sequence of
`after` cursors requested. -/
def fetchPaginatedLoop {α : Type} (server : Option Nat → GraphPage α) :
    Nat → List α → Option Nat → Option (List α × List (Option Nat))
  | 0, _, _ => none
  | fuel + 1, acc, afterCursor =>
    let page := server afterCursor
    let acc2 := acc ++ page.edges.map PageEdge.node
    let nextCursor :=
      match page.edges.getLast? with
      | some e => some e.cursor
      | none => none
    if page.hasNextPage then
      match fetchPaginatedLoop server fuel acc2 nextCursor with
      | some (res, trace) => some (res, afterCursor :: trace)
      | none => none
    else
      some (acc2, [afterCursor])

/-- `fetchPaginated` run against a server from the initial state
`items = []`, `afterCursor = null`. -/
def fetchPaginated {α : Type} (server : Option Nat → GraphPage α) (fuel : Nat) :
    Option (List α × List (Option Nat)) :=
  fetchPaginatedLoop server fuel [] none

/-- The `after` cursor with which the synthetic source's page `k` (0-based) is
requested: `null` for the first page, afterwards the last cursor of page
`k - 1`, which is the position `k * P - 1`. -/
def afterOf (P k : Nat) : Option Nat :=
  if k = 0 then none else some (k * P - 1)

/-! Infrastructure for the idempotence analysis of the seo-description
cleanup: a one-pass transformation relation and normal-form predicates. -/

/-- `Reduces l l'` holds when `l'` is obtained from `l` by deleting some
characters and replacing some characters by spaces, keeping the order.  Every
stage of the seo-description cleanup maps its input to a `Reduces`-image,
which is what makes character absences and the no-tag property persist down
the pipeline. -/
inductive Reduces : List Char → List Char → Prop
  | nil : Reduces [] []
  | keep (c : Char) {l l' : List Char} : Reduces l l' → Reduces (c :: l) (c :: l')
  | drop (c : Char) {l l' : List Char} : Reduces l l' → Reduces (c :: l) l'
  | space (c : Char) {l l' : List Char} : Reduces l l' → Reduces (c :: l) (' ' :: l')

/-- Whether the list contains a complete `<...>` tag, i.e. a `<` with some `>`
after it — exactly the situation in which `.replace(/<[^>]*>/g, '')` finds a
match. -/
def hasTag : List Char → Bool
  | [] => false
  | c :: cs => (c == '<' && cs.any (fun d => d == '>')) || hasTag cs

/-- Every whitespace character in the list is a plain space. -/
def allWsSpace (l : List Char) : Bool :=
  l.all fun c => !jsSpace c || c == ' '

/-- No two adjacent whitespace characters. -/
def noAdjWs : List Char → Bool
  | c :: d :: cs => !(jsSpace c && jsSpace d) && noAdjWs (d :: cs)
  | _ => true

/-- The first character, if any, is not whitespace. -/
def headNotWs : List Char → Bool
  | [] => true
  | c :: _ => !jsSpace c

/-- The last character, if any, is not whitespace. -/
def lastNotWs (l : List Char) : Bool :=
  match l.getLast? with
  | none => true
  | some c => !jsSpace c

/-! Sample data used by concrete witnesses and counterexamples. -/

/-- A catalog product used in concrete instances. -/
def sampleProduct : CatalogItem :=
  { id := "gid-p1", title := "Blue Mug", status := "active"
    description := "old text", descriptionHtml := "<p>old text</p>"
    seoTitle := "Blue Mug", seoDescription := "old meta"
    updatedAt := "2024-01-01", image := "img.png" }

/-- A content record of kind `description` for `sampleProduct`. -/
def sampleDescriptionRecord : OriginalContentRecord :=
  { originId := "gid-p1", contentType := "description"
    originalContent := "orig text", originalContentHtml := "<p>orig text</p>" }

/-- A content record for `sampleProduct` whose kind is neither `description`
nor `seo-description`. -/
def sampleOtherRecord : OriginalContentRecord :=
  { originId := "gid-p1", contentType := "alt-text"
    originalContent := "x", originalContentHtml := "y" }

/-- A record of kind `description` whose stored contents are empty strings. -/
def emptyDescriptionRecord : OriginalContentRecord :=
  { originId := "gid-p0", contentType := "description"
    originalContent := "", originalContentHtml := "" }

/-- A product whose current description is empty. -/
def emptyDescriptionProduct : CatalogItem :=
  { id := "gid-p0", title := "Bare", status := "active"
    description := "", descriptionHtml := ""
    seoTitle := "", seoDescription := ""
    updatedAt := "2024-01-01", image := "" }

/-- A dashboard row whose two reverted flags are both set. -/
def sampleRevertedRow : DashboardRow :=
  { id := "gid-p1", title := "Blue Mug", type := "product", status := "active"
    currentDescription := "orig text", currentDescriptionHtml := "<p>orig text</p>"
    currentSeoTitle := "Blue Mug", currentSeoDescription := "orig meta"
    hasAiDescription := true, hasAiSeo := true
    originalDescription := "<p>orig text</p>", originalSeoDescription := "orig meta"
    hasOriginalContent := true, updatedAt := "2024-01-01", image := "img.png"
    isDescriptionReverted := true, isSeoReverted := true }

/-- A generation session ready to publish a description for `sampleProduct`. -/
def sampleSession : SessionState :=
  { pageType := "product", contentType := "description"
    selectedItem := some { id := "gid-p1", title := "Blue Mug"
                           description := "old text"
                           descriptionHtml := "<p>old text</p>"
                           seo := some { title := some "Blue Mug"
                                         description := some "old meta" } }
    seoKeywords := "ceramic, dishwasher-safe"
    apiResponse := some (.withMessage "A fine ceramic mug")
    error := none, editedContent := "", isPublishing := false
    successMessage := none }

/-- A well-formed revert request for a collection's SEO description. -/
def sampleCollectionSeoRevert : RevertRequest :=
  { action := "revert", itemId := "gid-c1", itemType := "collection"
    originalContent := "original meta", contentType := "seo" }

/-! Claim theorems. -/

/-- Claim C1, counterexample.  The claim states that the reverted flag is true
if and only if current and original agree after tag-stripping, trimming and
lower-casing, including the case of both sides empty.  With both sides empty
the normalized values agree, yet `isContentReverted` returns `false` because
JavaScript short-circuits on any falsy argument, and the dashboard row built
from an empty-content record over an empty-description product carries
`isDescriptionReverted = false`. -/
theorem claim1_counterexample :
    ¬ ((isContentReverted "" "" = true) ↔ (cleanContent "" = cleanContent "")) ∧
    (buildProductRow [emptyDescriptionRecord] emptyDescriptionProduct).map
        DashboardRow.isDescriptionReverted = some false := by
  constructor
  · decide
  · decide

/-- Claim C1, amended.  The reverted flag is true iff both the current field
value and the record's original value are non-empty and they agree after
stripping markup tags, trimming and lower-casing; in particular original
`"Hello World"` against current `"<p>Hello World</p>"` yields true and against
`"<p>Hello Globe</p>"` yields false.  When either side is empty or missing the
flag is false even if the normalized values coincide. -/
theorem claim1_reverted_flag :
    (∀ current original : String,
      isContentReverted current original = true ↔
        (current ≠ "" ∧ original ≠ "" ∧ cleanContent current = cleanContent original)) ∧
    isContentReverted "<p>Hello World</p>" "Hello World" = true ∧
    isContentReverted "<p>Hello Globe</p>" "Hello World" = false := by
  refine ⟨fun current original => ?_, by decide, by decide⟩
  by_cases hc : current = "" <;> by_cases ho : original = "" <;>
    simp [isContentReverted, hc, ho]

/-- Claim C3, counterexample.  Normalizing
`{message: "• Durable\n• Dishwasher safe"}` in description mode does not
produce `"<ul><li>Durable</li><li>Dishwasher safe</li></ul>"`: the source
file's bullet pattern is the literal character sequence U+201A U+00C4 U+00A2,
which does not match the bullet sign U+2022, so no list items are produced at
all. -/
theorem claim3_counterexample :
    getGeneratedText (.withMessage "• Durable\n• Dishwasher safe")
        "description" "description" ≠
      "<ul><li>Durable</li><li>Dishwasher safe</li></ul>" := by
  decide

/-- Claim C3, amended.  Normalizing
`{message: "• Durable\n• Dishwasher safe"}` in description mode produces
exactly `"<p>• Durable</p><p>• Dishwasher safe</p>"`: the bullet detector
looks for the mojibake sequence `‚Ä¢` rather than `•`, so no list block is
emitted and each line becomes a paragraph block. -/
theorem claim3_bullet_normalization :
    getGeneratedText (.withMessage "• Durable\n• Dishwasher safe")
        "description" "description" =
      "<p>• Durable</p><p>• Dishwasher safe</p>" := by
  decide

/-- Claim C8.  Invoking the revert workflow for a kind whose reverted flag is
already true returns an informational (non-error) toast, submits no request
(hence no catalog mutation and no network traffic) and sets no spinner state:
an idempotent no-op. -/
theorem claim8_revert_idempotent (item : DashboardRow) :
    (item.isDescriptionReverted = true →
      handleRevertDescription item =
        { toast := some ("Description has already been reverted to original content", false)
          submission := none, reverting := none }) ∧
    (item.isSeoReverted = true →
      handleRevertSeo item =
        { toast := some ("SEO description has already been reverted to original content", false)
          submission := none, reverting := none }) := by
  constructor <;> intro h <;> simp [handleRevertDescription, handleRevertSeo, h]

/-- Witness for claim C8 at a concrete fully-reverted row. -/
theorem claim8_revert_idempotent_witness :
    handleRevertDescription sampleRevertedRow =
      { toast := some ("Description has already been reverted to original content", false)
        submission := none, reverting := none } ∧
    handleRevertSeo sampleRevertedRow =
      { toast := some ("SEO description has already been reverted to original content", false)
        submission := none, reverting := none } :=
  ⟨(claim8_revert_idempotent sampleRevertedRow).1 (by decide),
   (claim8_revert_idempotent sampleRevertedRow).2 (by decide)⟩

/-- Claim C10.  For every well-formed revert request with item type
`collection` and content kind `seo`, the action executes the catalog mutation
but never returns success: the collection-SEO GraphQL document omits the
`userErrors` selection, reading `.length` on the missing field throws, and the
catch responds with `success: false` and HTTP status 500 — regardless of
whether the mutation itself reported any user errors. -/
theorem claim10_collection_seo_500
    (body : RevertRequest) (serverUserErrors : List UserError)
    (ha : body.action = "revert") (hid : body.itemId ≠ "")
    (hty : body.itemType = "collection") (hoc : body.originalContent ≠ "")
    (hct : body.contentType = "seo") :
    (revertAction body serverUserErrors).1.success = false ∧
    (revertAction body serverUserErrors).1.status = 500 ∧
    (revertAction body serverUserErrors).2 = true := by
  simp [revertAction, mutationSelectsUserErrors, ha, hid, hty, hoc, hct]

/-- Witness for claim C10: a concrete collection-SEO revert whose mutation
reports no user errors still yields `success: false` with status 500. -/
theorem claim10_collection_seo_500_witness :
    (revertAction sampleCollectionSeoRevert []).1.success = false ∧
    (revertAction sampleCollectionSeoRevert []).1.status = 500 ∧
    (revertAction sampleCollectionSeoRevert []).2 = true :=
  claim10_collection_seo_500 sampleCollectionSeoRevert []
    (by decide) (by decide) (by decide) (by decide) (by decide)

/-- Claim C5.  Whenever the content-store baseline POST fails (non-ok status,
a thrown fetch error, or an unreadable body), the whole publish aborts: the
selected item — hence its description, descriptionHtml and seo fields — is
left exactly as it was, no optimistic update is applied, the catalog-mutation
call is never issued, and a user-facing error plus an error toast are
surfaced. -/
theorem claim5_publish_abort
    (st : SessionState) (item : SelectedItem) (ext shopify : FetchOutcome)
    (hsel : st.selectedItem = some item)
    (hcontent : ¬(aiFalsy st.apiResponse = true ∧ st.editedContent = ""))
    (hfail : ext ≠ .ok) :
    (handlePublish st ext shopify).state.selectedItem = st.selectedItem ∧
    (handlePublish st ext shopify).shopifyRequested = false ∧
    (handlePublish st ext shopify).updatePayload = none ∧
    (handlePublish st ext shopify).externalRequested = true ∧
    (∃ msg, (handlePublish st ext shopify).state.error = some msg) ∧
    (handlePublish st ext shopify).toasts =
      [("Failed to publish content. Please try again.", true)] := by
  have hguard : (aiFalsy st.apiResponse && decide (st.editedContent = "")) = false := by
    by_cases he : st.editedContent = ""
    · have hb : aiFalsy st.apiResponse = false := by
        cases hb : aiFalsy st.apiResponse
        · rfl
        · exact absurd ⟨hb, he⟩ hcontent
      simp [hb]
    · simp [he]
  cases ext with
  | ok => exact absurd rfl hfail
  | httpError status statusText => simp [handlePublish, hsel, hguard]
  | thrown msg => simp [handlePublish, hsel, hguard]
  | okBadJson msg => simp [handlePublish, hsel, hguard]

/-- Witness for claim C5: a concrete session whose baseline POST throws. -/
theorem claim5_publish_abort_witness :
    sampleSession.selectedItem.isSome = true ∧
    (handlePublish sampleSession (.thrown "network down") .ok).state.selectedItem =
      sampleSession.selectedItem ∧
    (handlePublish sampleSession (.thrown "network down") .ok).shopifyRequested = false ∧
    (handlePublish sampleSession (.thrown "network down") .ok).updatePayload = none := by
  have h := claim5_publish_abort sampleSession
    { id := "gid-p1", title := "Blue Mug", description := "old text"
      descriptionHtml := "<p>old text</p>"
      seo := some { title := some "Blue Mug", description := some "old meta" } }
    (.thrown "network down") .ok (by decide) (by decide) (by decide)
  exact ⟨by decide, h.1, h.2.1, h.2.2.1⟩

/-- Claim C6.  Once the content-store baseline call has succeeded, the outcome
of the final catalog-mutation call is irrelevant to the result: the publish
result is literally the same as in the all-success run, the selected item
holds the optimistic update, the error field stays null, and the success toast
is the only toast — the catalog failure is swallowed with no rollback and no
user-facing error. -/
theorem claim6_swallowed_failure
    (st : SessionState) (item : SelectedItem) (shopify : FetchOutcome)
    (hsel : st.selectedItem = some item)
    (hcontent : ¬(aiFalsy st.apiResponse = true ∧ st.editedContent = "")) :
    handlePublish st .ok shopify = handlePublish st .ok .ok ∧
    (handlePublish st .ok shopify).state.selectedItem =
      some (applyOptimisticUpdate item st.contentType (publishContent st)) ∧
    (handlePublish st .ok shopify).state.error = none ∧
    (handlePublish st .ok shopify).shopifyRequested = true ∧
    (handlePublish st .ok shopify).toasts =
      [((if st.contentType = "seo-description" then "SEO meta description" else "description") ++
          " published successfully for " ++ item.title ++ "!", false)] := by
  have hguard : (aiFalsy st.apiResponse && decide (st.editedContent = "")) = false := by
    by_cases he : st.editedContent = ""
    · have hb : aiFalsy st.apiResponse = false := by
        cases hb : aiFalsy st.apiResponse
        · rfl
        · exact absurd ⟨hb, he⟩ hcontent
      simp [hb]
    · simp [he]
  refine ⟨rfl, ?_, ?_, ?_, ?_⟩ <;> simp [handlePublish, hsel, hguard]

/-- Witness for claim C6: with the concrete session, a failing catalog call
gives the same result as a succeeding one, with the optimistic update in
place. -/
theorem claim6_swallowed_failure_witness :
    handlePublish sampleSession .ok (.httpError 500 "Internal Server Error") =
      handlePublish sampleSession .ok .ok ∧
    (handlePublish sampleSession .ok (.httpError 500 "Internal Server Error")).state.error =
      none := by
  have h := claim6_swallowed_failure sampleSession
    { id := "gid-p1", title := "Blue Mug", description := "old text"
      descriptionHtml := "<p>old text</p>"
      seo := some { title := some "Blue Mug", description := some "old meta" } }
    (.httpError 500 "Internal Server Error") (by decide) (by decide)
  exact ⟨h.1, h.2.2.1⟩

/-- A record lookup succeeds exactly when some record matches the identifier
and the content kind. -/
theorem findRecord_isSome_iff (originalContents : List OriginalContentRecord)
    (id kind : String) :
    (findRecord originalContents id kind).isSome = true ↔
      ∃ oc ∈ originalContents, oc.originId = id ∧ oc.contentType = kind := by
  simp [findRecord, List.find?_isSome]

/-- A product row is emitted exactly when one of the two record lookups
succeeds. -/
theorem buildProductRow_isSome_iff (originalContents : List OriginalContentRecord)
    (item : CatalogItem) :
    (buildProductRow originalContents item).isSome = true ↔
      ((findRecord originalContents item.id "description").isSome = true ∨
       (findRecord originalContents item.id "seo-description").isSome = true) := by
  unfold buildProductRow
  rcases h1 : findRecord originalContents item.id "description" with _ | oc <;>
    rcases h2 : findRecord originalContents item.id "seo-description" with _ | os <;>
      simp [h1, h2]

/-- A collection row is emitted exactly when one of the two record lookups
succeeds. -/
theorem buildCollectionRow_isSome_iff (originalContents : List OriginalContentRecord)
    (item : CatalogItem) :
    (buildCollectionRow originalContents item).isSome = true ↔
      ((findRecord originalContents item.id "description").isSome = true ∨
       (findRecord originalContents item.id "seo-description").isSome = true) := by
  unfold buildCollectionRow
  rcases h1 : findRecord originalContents item.id "description" with _ | oc <;>
    rcases h2 : findRecord originalContents item.id "seo-description" with _ | os <;>
      simp [h1, h2]

/-- The flags and type tag of an emitted product row. -/
theorem buildProductRow_flags (originalContents : List OriginalContentRecord)
    (item : CatalogItem) (row : DashboardRow)
    (h : buildProductRow originalContents item = some row) :
    row.hasAiDescription = (findRecord originalContents item.id "description").isSome ∧
    row.hasAiSeo = (findRecord originalContents item.id "seo-description").isSome ∧
    row.type = "product" := by
  simp only [buildProductRow] at h
  split at h
  · simp at h
  · cases h
    exact ⟨rfl, rfl, rfl⟩

/-- The flags and type tag of an emitted collection row. -/
theorem buildCollectionRow_flags (originalContents : List OriginalContentRecord)
    (item : CatalogItem) (row : DashboardRow)
    (h : buildCollectionRow originalContents item = some row) :
    row.hasAiDescription = (findRecord originalContents item.id "description").isSome ∧
    row.hasAiSeo = (findRecord originalContents item.id "seo-description").isSome ∧
    row.type = "collection" := by
  simp only [buildCollectionRow] at h
  split at h
  · simp at h
  · cases h
    exact ⟨rfl, rfl, rfl⟩

/-- Claim C2.  The loader's row set is the concatenation of the per-item
joins; an item yields a row iff some record matches its identifier with kind
`description` or `seo-description`; and an emitted row's `hasAiDescription` /
`hasAiSeo` flags hold exactly when a record of the corresponding kind exists —
so a record for exactly one kind sets that flag and leaves the other false. -/
theorem claim2_row_membership (originalContents : List OriginalContentRecord) :
    (∀ products collections : List CatalogItem,
      (loader products collections originalContents).items =
        products.filterMap (buildProductRow originalContents) ++
          collections.filterMap (buildCollectionRow originalContents)) ∧
    (∀ item : CatalogItem,
      ((buildProductRow originalContents item).isSome = true ↔
        ∃ oc ∈ originalContents, oc.originId = item.id ∧
          (oc.contentType = "description" ∨ oc.contentType = "seo-description")) ∧
      ((buildCollectionRow originalContents item).isSome = true ↔
        ∃ oc ∈ originalContents, oc.originId = item.id ∧
          (oc.contentType = "description" ∨ oc.contentType = "seo-description"))) ∧
    (∀ (item : CatalogItem) (row : DashboardRow),
      buildProductRow originalContents item = some row →
        (row.hasAiDescription = true ↔
          ∃ oc ∈ originalContents, oc.originId = item.id ∧ oc.contentType = "description") ∧
        (row.hasAiSeo = true ↔
          ∃ oc ∈ originalContents, oc.originId = item.id ∧ oc.contentType = "seo-description")) ∧
    (∀ (item : CatalogItem) (row : DashboardRow),
      buildCollectionRow originalContents item = some row →
        (row.hasAiDescription = true ↔
          ∃ oc ∈ originalContents, oc.originId = item.id ∧ oc.contentType = "description") ∧
        (row.hasAiSeo = true ↔
          ∃ oc ∈ originalContents, oc.originId = item.id ∧ oc.contentType = "seo-description")) := by
  have hsplit : ∀ item : CatalogItem,
      ((findRecord originalContents item.id "description").isSome = true ∨
        (findRecord originalContents item.id "seo-description").isSome = true) ↔
      ∃ oc ∈ originalContents, oc.originId = item.id ∧
        (oc.contentType = "description" ∨ oc.contentType = "seo-description") := by
    intro item
    rw [findRecord_isSome_iff, findRecord_isSome_iff]
    constructor
    · rintro (⟨oc, hm, hid, hk⟩ | ⟨oc, hm, hid, hk⟩)
      · exact ⟨oc, hm, hid, Or.inl hk⟩
      · exact ⟨oc, hm, hid, Or.inr hk⟩
    · rintro ⟨oc, hm, hid, hk | hk⟩
      · exact Or.inl ⟨oc, hm, hid, hk⟩
      · exact Or.inr ⟨oc, hm, hid, hk⟩
  refine ⟨fun _ _ => rfl, fun item => ?_, fun item row h => ?_, fun item row h => ?_⟩
  · rw [buildProductRow_isSome_iff, buildCollectionRow_isSome_iff]
    exact ⟨hsplit item, hsplit item⟩
  · obtain ⟨hd, hs, -⟩ := buildProductRow_flags originalContents item row h
    rw [hd, hs]
    exact ⟨findRecord_isSome_iff _ _ _, findRecord_isSome_iff _ _ _⟩
  · obtain ⟨hd, hs, -⟩ := buildCollectionRow_flags originalContents item row h
    rw [hd, hs]
    exact ⟨findRecord_isSome_iff _ _ _, findRecord_isSome_iff _ _ _⟩

/-- Witness for claim C2: over a single `description` record, `sampleProduct`
yields a row with `hasAiDescription` true and `hasAiSeo` false. -/
theorem claim2_row_membership_witness :
    (buildProductRow [sampleDescriptionRecord] sampleProduct).map
        DashboardRow.hasAiDescription = some true ∧
    (buildProductRow [sampleDescriptionRecord] sampleProduct).map
        DashboardRow.hasAiSeo = some false := by
  rcases hrow : buildProductRow [sampleDescriptionRecord] sampleProduct with _ | row
  · exact absurd hrow (by decide)
  · have hflags :=
      (claim2_row_membership [sampleDescriptionRecord]).2.2.1 sampleProduct row hrow
    have hd : row.hasAiDescription = true :=
      hflags.1.mpr ⟨sampleDescriptionRecord, by simp, rfl, rfl⟩
    have hs : row.hasAiSeo = false := by
      cases hb : row.hasAiSeo
      · rfl
      · exact absurd (hflags.2.mp hb) (by decide)
    simp [hd, hs]

/-- Counting a `filterMap` equals counting a Boolean filter when the success
of the partial map agrees pointwise with the predicate. -/
theorem filterMap_length_eq_filter_length {α β : Type} (f : α → Option β)
    (q : α → Bool) :
    ∀ l : List α, (∀ x ∈ l, (f x).isSome = q x) →
      (l.filterMap f).length = (l.filter q).length := by
  intro l h
  induction l with
  | nil => rfl
  | cons a t ih =>
    have ha := h a (List.mem_cons_self a t)
    have ht := ih fun x hx => h x (List.mem_cons_of_mem a hx)
    rcases hfa : f a with _ | b
    · have hqa : q a = false := by rw [← ha, hfa]; rfl
      simp [List.filterMap_cons, List.filter_cons, hfa, hqa, ht]
    · have hqa : q a = true := by rw [← ha, hfa]; rfl
      simp [List.filterMap_cons, List.filter_cons, hfa, hqa, ht]

/-- Every row produced from the product list is tagged `product`. -/
theorem mem_filterMap_product_type (originalContents : List OriginalContentRecord)
    (products : List CatalogItem) :
    ∀ row ∈ products.filterMap (buildProductRow originalContents),
      row.type = "product" := by
  intro row hrow
  rcases List.mem_filterMap.mp hrow with ⟨p, _, hbuild⟩
  exact (buildProductRow_flags originalContents p row hbuild).2.2

/-- Every row produced from the collection list is tagged `collection`. -/
theorem mem_filterMap_collection_type (originalContents : List OriginalContentRecord)
    (collections : List CatalogItem) :
    ∀ row ∈ collections.filterMap (buildCollectionRow originalContents),
      row.type = "collection" := by
  intro row hrow
  rcases List.mem_filterMap.mp hrow with ⟨c, _, hbuild⟩
  exact (buildCollectionRow_flags originalContents c row hbuild).2.2

/-- When every record's kind is one of the two tracked kinds, an item gets a
row exactly when the counting predicate (identifier match only) accepts it. -/
theorem buildRow_isSome_eq_any (originalContents : List OriginalContentRecord)
    (H : ∀ oc ∈ originalContents,
      oc.contentType = "description" ∨ oc.contentType = "seo-description")
    (item : CatalogItem) :
    ((buildProductRow originalContents item).isSome =
      originalContents.any (fun oc => oc.originId == item.id)) ∧
    ((buildCollectionRow originalContents item).isSome =
      originalContents.any (fun oc => oc.originId == item.id)) := by
  have key : ((findRecord originalContents item.id "description").isSome = true ∨
      (findRecord originalContents item.id "seo-description").isSome = true) ↔
      originalContents.any (fun oc => oc.originId == item.id) = true := by
    rw [findRecord_isSome_iff, findRecord_isSome_iff, List.any_eq_true]
    constructor
    · rintro (⟨oc, hm, hid, -⟩ | ⟨oc, hm, hid, -⟩) <;> exact ⟨oc, hm, by simp [hid]⟩
    · rintro ⟨oc, hm, hid⟩
      rcases H oc hm with hk | hk
      · exact Or.inl ⟨oc, hm, by simpa using hid, hk⟩
      · exact Or.inr ⟨oc, hm, by simpa using hid, hk⟩
  constructor
  · rw [Bool.eq_iff_iff, buildProductRow_isSome_iff]
    exact key
  · rw [Bool.eq_iff_iff, buildCollectionRow_isSome_iff]
    exact key

/-- Claim C4, counterexample.  With one product and one record that matches
its identifier but has kind `alt-text`, no row is emitted yet `productCount`
is 1: the aggregate counts are not recomputed identically to the
row-membership filter when a record's kind is neither `description` nor
`seo-description`. -/
theorem claim4_counterexample :
    (loader [sampleProduct] [] [sampleOtherRecord]).productCount ≠
      ((loader [sampleProduct] [] [sampleOtherRecord]).items.filter
        (fun row => row.type == "product")).length := by
  decide

/-- Claim C4, amended.  `modifiedCount` always equals the number of emitted
rows, but `productCount`/`collectionCount` count items having a record of any
kind whatsoever; they equal the number of emitted product/collection rows only
under the assumption that every record's kind is `description` or
`seo-description`. -/
theorem claim4_counts (products collections : List CatalogItem)
    (originalContents : List OriginalContentRecord) :
    (loader products collections originalContents).modifiedCount =
      (loader products collections originalContents).items.length ∧
    ((∀ oc ∈ originalContents,
        oc.contentType = "description" ∨ oc.contentType = "seo-description") →
      (loader products collections originalContents).productCount =
        ((loader products collections originalContents).items.filter
          (fun row => row.type == "product")).length ∧
      (loader products collections originalContents).collectionCount =
        ((loader products collections originalContents).items.filter
          (fun row => row.type == "collection")).length) := by
  refine ⟨rfl, fun H => ⟨?_, ?_⟩⟩
  · show (products.filter _).length = _
    rw [show (loader products collections originalContents).items =
        products.filterMap (buildProductRow originalContents) ++
          collections.filterMap (buildCollectionRow originalContents) from rfl,
      List.filter_append, List.length_append]
    have hcoll : (collections.filterMap (buildCollectionRow originalContents)).filter
        (fun row => row.type == "product") = [] := by
      rw [List.filter_eq_nil]
      intro row hrow
      simp [mem_filterMap_collection_type originalContents collections row hrow]
    have hprod : (products.filterMap (buildProductRow originalContents)).filter
        (fun row => row.type == "product") =
        products.filterMap (buildProductRow originalContents) := by
      rw [List.filter_eq_self]
      intro row hrow
      simp [mem_filterMap_product_type originalContents products row hrow]
    rw [hcoll, hprod, List.length_nil, Nat.add_zero]
    exact (filterMap_length_eq_filter_length _ _ products
      (fun p _ => (buildRow_isSome_eq_any originalContents H p).1)).symm
  · show (collections.filter _).length = _
    rw [show (loader products collections originalContents).items =
        products.filterMap (buildProductRow originalContents) ++
          collections.filterMap (buildCollectionRow originalContents) from rfl,
      List.filter_append, List.length_append]
    have hprod : (products.filterMap (buildProductRow originalContents)).filter
        (fun row => row.type == "collection") = [] := by
      rw [List.filter_eq_nil]
      intro row hrow
      simp [mem_filterMap_product_type originalContents products row hrow]
    have hcoll : (collections.filterMap (buildCollectionRow originalContents)).filter
        (fun row => row.type == "collection") =
        collections.filterMap (buildCollectionRow originalContents) := by
      rw [List.filter_eq_self]
      intro row hrow
      simp [mem_filterMap_collection_type originalContents collections row hrow]
    rw [hprod, hcoll, List.length_nil, Nat.zero_add]
    exact (filterMap_length_eq_filter_length _ _ collections
      (fun c _ => (buildRow_isSome_eq_any originalContents H c).2)).symm

/-- Witness for claim C4: with one product, one collection-less list and one
`description` record, the counts agree with the emitted rows. -/
theorem claim4_counts_witness :
    (loader [sampleProduct] [] [sampleDescriptionRecord]).modifiedCount =
      (loader [sampleProduct] [] [sampleDescriptionRecord]).items.length ∧
    (loader [sampleProduct] [] [sampleDescriptionRecord]).productCount =
      ((loader [sampleProduct] [] [sampleDescriptionRecord]).items.filter
        (fun row => row.type == "product")).length :=
  ⟨(claim4_counts [sampleProduct] [] [sampleDescriptionRecord]).1,
   ((claim4_counts [sampleProduct] [] [sampleDescriptionRecord]).2 (by decide)).1⟩

/-- The nodes of a synthetic page are exactly the listed items. -/
theorem mkEdges_map_node {α : Type} :
    ∀ (l : List α) (start : Nat), (mkEdges start l).map PageEdge.node = l := by
  intro l
  induction l with
  | nil => intro start; rfl
  | cons a t ih => intro start; simp [mkEdges, ih]

/-- The length of a synthetic edge list. -/
theorem mkEdges_length {α : Type} :
    ∀ (l : List α) (start : Nat), (mkEdges start l).length = l.length := by
  intro l
  induction l with
  | nil => intro start; rfl
  | cons a t ih => intro start; simp [mkEdges, ih]

/-- The last edge of a non-empty synthetic page carries the cursor of the last
position served. -/
theorem mkEdges_getLast {α : Type} :
    ∀ (l : List α) (start : Nat), l ≠ [] →
      ∃ e : PageEdge α, (mkEdges start l).getLast? = some e ∧
        e.cursor = start + l.length - 1 := by
  intro l
  induction l with
  | nil => intro start h; exact absurd rfl h
  | cons a t ih =>
    intro start _
    cases t with
    | nil => exact ⟨⟨start, a⟩, by simp [mkEdges], by simp⟩
    | cons b t2 =>
      rcases ih (start + 1) (by simp) with ⟨e, he, hc⟩
      refine ⟨e, ?_, ?_⟩
      · have h3 : mkEdges start (a :: b :: t2) =
            ⟨start, a⟩ :: ⟨start + 1, b⟩ :: mkEdges (start + 2) t2 := rfl
        have h4 : mkEdges (start + 1) (b :: t2) =
            ⟨start + 1, b⟩ :: mkEdges (start + 2) t2 := rfl
        rw [h3, List.getLast?_cons_cons, ← h4]
        exact he
      · rw [hc]
        simp [List.length_cons]
        omega

/-- The synthetic server's reply to the cursor of page `k`: it serves from
position `k * P`. -/
theorem syntheticServer_afterOf {α : Type} (items : List α) (P k : Nat) (hP : 1 ≤ P) :
    syntheticServer items P (afterOf P k) =
      { edges := mkEdges (k * P) ((items.drop (k * P)).take P)
        hasNextPage := decide (k * P + P < items.length) } := by
  cases k with
  | zero => simp [syntheticServer, afterOf]
  | succ j =>
    have hpos : 1 ≤ (j + 1) * P := Nat.mul_pos (Nat.succ_pos j) (by omega)
    have hs : (j + 1) * P - 1 + 1 = (j + 1) * P := Nat.sub_add_cancel hpos
    simp only [syntheticServer, afterOf, if_neg (Nat.succ_ne_zero j)]
    rw [hs]

/-- Main loop invariant of the pagination fetcher run against the synthetic
server: started at page `k` with enough fuel, it returns the accumulator
followed by all items from position `k * P` on, and its request trace is the
cursor of page `k` followed by the cursors of the subsequent pages. -/
theorem fetchLoop_spec {α : Type} (items : List α) (P : Nat) (hP : 1 ≤ P) :
    ∀ (fuel : Nat), ∀ (k : Nat) (acc : List α), 1 ≤ fuel →
      items.length ≤ k * P + fuel * P →
      fetchPaginatedLoop (syntheticServer items P) fuel acc (afterOf P k) =
        some (acc ++ items.drop (k * P),
          (List.range ((items.length - k * P - 1) / P + 1)).map
            (fun i => afterOf P (k + i))) := by
  intro fuel
  induction fuel with
  | zero => intro k acc h0 _; omega
  | succ f ih =>
    intro k acc _ hN
    have hkP : (k + 1) * P = k * P + P := Nat.succ_mul k P
    have hfP : (f + 1) * P = f * P + P := Nat.succ_mul f P
    rw [fetchPaginatedLoop, syntheticServer_afterOf items P k hP]
    by_cases hNext : k * P + P < items.length
    · -- a full page, and more to come
      have hlen : ((items.drop (k * P)).take P).length = P := by
        simp [List.length_take, List.length_drop]
        omega
      have hne : (items.drop (k * P)).take P ≠ [] := by
        intro h
        rw [h] at hlen
        simp at hlen
        omega
      rcases mkEdges_getLast ((items.drop (k * P)).take P) (k * P) hne with ⟨e, he, hc⟩
      have hcursor : some e.cursor = afterOf P (k + 1) := by
        rw [hc, hlen, afterOf, if_neg (Nat.succ_ne_zero k)]
        simp only [Option.some.injEq]
        omega
      have hf1 : 1 ≤ f := by
        have hfPpos : 0 < f * P := by omega
        exact Nat.pos_of_ne_zero fun h => by subst h; simp at hfPpos
      have hrec := ih (k + 1) (acc ++ ((items.drop (k * P)).take P)) hf1 (by omega)
      simp only [mkEdges_map_node, he, decide_eq_true_eq, hNext, if_pos, hcursor]
      rw [hrec]
      have hdrop : (items.drop (k * P)).take P ++ items.drop ((k + 1) * P) =
          items.drop (k * P) := by
        have hdd : (items.drop (k * P)).drop P = items.drop ((k + 1) * P) := by
          rw [List.drop_drop]
          congr 1 <;> omega
        rw [← hdd, List.take_append_drop]
      have hdiv : (items.length - k * P - 1) / P =
          (items.length - (k + 1) * P - 1) / P + 1 := by
        have hle : P ≤ items.length - k * P - 1 := by omega
        have harg : items.length - k * P - 1 - P = items.length - (k + 1) * P - 1 := by
          omega
        have hstep := Nat.div_eq_sub_div (by omega : 0 < P) hle
        rw [hstep, harg]
      have htrace : (List.range ((items.length - k * P - 1) / P + 1)).map
            (fun i => afterOf P (k + i)) =
          afterOf P k :: (List.range ((items.length - (k + 1) * P - 1) / P + 1)).map
            (fun i => afterOf P (k + 1 + i)) := by
        rw [hdiv, List.range_succ_eq_map]
        simp only [List.map_cons, List.map_map, Nat.add_zero]
        congr 1
        apply List.map_congr_left
        intro i _
        simp only [Function.comp_apply]
        congr 1
        omega
      rw [htrace, List.append_assoc, hdrop]
    · -- last page
      have hall : (items.drop (k * P)).take P = items.drop (k * P) := by
        apply List.take_of_length_le
        simp [List.length_drop]
        omega
      have hdiv0 : (items.length - k * P - 1) / P = 0 := by
        apply Nat.div_eq_of_lt
        omega
      simp only [mkEdges_map_node, decide_eq_true_eq, hNext, if_neg, if_false, hall,
        hdiv0, show List.range 1 = [0] from rfl, List.map_cons, List.map_nil,
        Nat.add_zero]

/-- Claim C7.  Against a synthetic cursor-paged source of the full item list
with any page size `P >= 1` that reports `hasNextPage` correctly and serves
pages in order, the pagination fetcher terminates within `N / P + 1` requests
and returns exactly the `N` items in their original order; its request trace
asks for page `k + 1` with cursor `(k + 1) * P - 1`, the last cursor returned
by page `k`, starting from a null cursor. -/
theorem claim7_pagination {α : Type} (items : List α) (P : Nat) (hP : 1 ≤ P) :
    fetchPaginated (syntheticServer items P) (items.length / P + 1) =
      some (items,
        (List.range ((items.length - 1) / P + 1)).map (afterOf P)) ∧
    (∀ k : Nat, k ≠ 0 → afterOf P k = some (k * P - 1)) := by
  constructor
  · have hkey : items.length < (items.length / P + 1) * P :=
      (Nat.div_lt_iff_lt_mul (by omega)).mp (Nat.lt_succ_self _)
    have h := fetchLoop_spec items P hP (items.length / P + 1) 0 []
      (Nat.succ_le_succ (Nat.zero_le _)) (by omega)
    have h0 : afterOf P 0 = none := rfl
    rw [h0] at h
    rw [fetchPaginated, h]
    simp
  · intro k hk
    simp [afterOf, hk]

/-- Witness for claim C7: five items served two at a time come back complete
and in order, via the cursor trace null, 1, 3. -/
theorem claim7_pagination_witness :
    fetchPaginated (syntheticServer [10, 20, 30, 40, 50] 2)
        ([10, 20, 30, 40, 50].length / 2 + 1) =
      some ([10, 20, 30, 40, 50],
        (List.range (([10, 20, 30, 40, 50].length - 1) / 2 + 1)).map (afterOf 2)) ∧
    afterOf 2 2 = some 3 :=
  ⟨(claim7_pagination [10, 20, 30, 40, 50] 2 (by decide)).1,
   (claim7_pagination [10, 20, 30, 40, 50] 2 (by decide)).2 2 (by decide)⟩

/-- Every list reduces to itself. -/
theorem Reduces.refl : ∀ l : List Char, Reduces l l
  | [] => Reduces.nil
  | c :: cs => Reduces.keep c (Reduces.refl cs)

/-- Transitivity of one-pass reduction. -/
theorem Reduces.trans {l m n : List Char} (h1 : Reduces l m) (h2 : Reduces m n) :
    Reduces l n := by
  induction h1 generalizing n with
  | nil =>
    cases h2
    exact Reduces.nil
  | keep c h ih =>
    cases h2 with
    | keep _ h2' => exact Reduces.keep c (ih h2')
    | drop _ h2' => exact Reduces.drop c (ih h2')
    | space _ h2' => exact Reduces.space c (ih h2')
  | drop c h ih => exact Reduces.drop c (ih h2)
  | space c h ih =>
    cases h2 with
    | keep _ h2' => exact Reduces.space c (ih h2')
    | drop _ h2' => exact Reduces.drop c (ih h2')
    | space _ h2' => exact Reduces.space c (ih h2')

/-- A reduction target is reachable from any extension of the source on the
left. -/
theorem Reduces.drop_append (pre : List Char) {l l' : List Char}
    (h : Reduces l l') : Reduces (pre ++ l) l' := by
  induction pre with
  | nil => exact h
  | cons c cs ih => exact Reduces.drop c ih

/-- Characters of a reduction image come from the source or are spaces. -/
theorem Reduces.mem {l l' : List Char} (h : Reduces l l') :
    ∀ c ∈ l', c ∈ l ∨ c = ' ' := by
  induction h with
  | nil => intro c hc; cases hc
  | keep a h ih =>
    intro c hc
    rcases List.mem_cons.mp hc with hcc | hc'
    · exact Or.inl (hcc ▸ List.mem_cons_self _ _)
    · rcases ih c hc' with hm | hs
      · exact Or.inl (List.mem_cons_of_mem _ hm)
      · exact Or.inr hs
  | drop a h ih =>
    intro c hc
    rcases ih c hc with hm | hs
    · exact Or.inl (List.mem_cons_of_mem _ hm)
    · exact Or.inr hs
  | space a h ih =>
    intro c hc
    rcases List.mem_cons.mp hc with hcc | hc'
    · exact Or.inr hcc
    · rcases ih c hc' with hm | hs
      · exact Or.inl (List.mem_cons_of_mem _ hm)
      · exact Or.inr hs

/-- A non-space character absent from the source is absent from any reduction
image. -/
theorem Reduces.not_mem {l l' : List Char} (h : Reduces l l') {c : Char}
    (hc : c ≠ ' ') (hl : c ∉ l) : c ∉ l' := fun hmem =>
  match h.mem c hmem with
  | Or.inl hm => hl hm
  | Or.inr hs => hc hs

/-- Reduction cannot create a complete tag. -/
theorem Reduces.hasTag_mono {l l' : List Char} (h : Reduces l l')
    (ht : hasTag l' = true) : hasTag l = true := by
  induction h with
  | nil => simp [hasTag] at ht
  | keep a h ih =>
    rw [hasTag, Bool.or_eq_true, Bool.and_eq_true] at ht
    rw [hasTag, Bool.or_eq_true, Bool.and_eq_true]
    rcases ht with ⟨ha, hgt⟩ | htail
    · rcases List.any_eq_true.mp hgt with ⟨d, hd, hdeq⟩
      have hd' : d = '>' := by simpa using hdeq
      subst hd'
      rcases h.mem '>' hd with hm | hs
      · exact Or.inl ⟨ha, List.any_eq_true.mpr ⟨'>', hm, by simp⟩⟩
      · exact absurd hs (by decide)
    · exact Or.inr (ih htail)
  | drop a h ih =>
    rw [hasTag, Bool.or_eq_true]
    exact Or.inr (ih ht)
  | space a h ih =>
    rw [hasTag, Bool.or_eq_true, Bool.and_eq_true] at ht
    rw [hasTag, Bool.or_eq_true]
    rcases ht with ⟨ha, -⟩ | htail
    · exact absurd ha (by decide)
    · exact Or.inr (ih htail)

/-- Boolean filters are reductions. -/
theorem reduces_filter (p : Char → Bool) : ∀ l : List Char, Reduces l (l.filter p) := by
  intro l
  induction l with
  | nil => exact Reduces.nil
  | cons c cs ih =>
    by_cases hp : p c = true
    · rw [List.filter_cons_of_pos hp]
      exact Reduces.keep c ih
    · rw [List.filter_cons_of_neg (by simpa using hp)]
      exact Reduces.drop c ih

/-- Dropping a prefix is a reduction. -/
theorem reduces_dropWhile (p : Char → Bool) :
    ∀ l : List Char, Reduces l (l.dropWhile p) := by
  intro l
  induction l with
  | nil => exact Reduces.nil
  | cons c cs ih =>
    rw [List.dropWhile_cons]
    by_cases hp : p c = true
    · rw [if_pos hp]
      exact Reduces.drop c ih
    · rw [if_neg hp]
      exact Reduces.keep c (Reduces.refl cs)

/-- Dropping trailing whitespace is a reduction. -/
theorem reduces_dropTrailingWs : ∀ l : List Char, Reduces l (dropTrailingWs l) := by
  intro l
  induction l with
  | nil => exact Reduces.nil
  | cons c cs ih =>
    rw [dropTrailingWs]
    rcases h : dropTrailingWs cs with _ | ⟨d, r⟩
    · rw [h] at ih
      by_cases hw : jsSpace c = true
      · simpa [hw] using Reduces.drop c ih
      · simpa [hw] using Reduces.keep c ih
    · rw [h] at ih
      simpa using Reduces.keep c ih

/-- Trimming is a reduction. -/
theorem reduces_trimChars (l : List Char) : Reduces l (trimChars l) :=
  (reduces_dropWhile jsSpace l).trans (reduces_dropTrailingWs _)

/-- The double-comma replacement is a reduction (in the pending state, the
unemitted comma is accounted to the source). -/
theorem reduces_replDoubleCommaGo :
    ∀ l : List Char, Reduces l (replDoubleCommaGo l false) ∧
      Reduces (',' :: l) (replDoubleCommaGo l true) := by
  intro l
  induction l with
  | nil => exact ⟨Reduces.nil, Reduces.keep ',' Reduces.nil⟩
  | cons c cs ih =>
    constructor
    · by_cases hc : c = ','
      · subst hc
        simpa [replDoubleCommaGo] using ih.2
      · simpa [replDoubleCommaGo, hc] using Reduces.keep c ih.1
    · by_cases hc : c = ','
      · subst hc
        simpa [replDoubleCommaGo] using Reduces.space ',' (Reduces.drop ',' ih.1)
      · simpa [replDoubleCommaGo, hc] using Reduces.keep ',' (Reduces.keep c ih.1)

/-- The comma-and-whitespace replacement is a reduction. -/
theorem reduces_replCommaWsGo :
    ∀ (l : List Char) (flag : Bool), Reduces l (replCommaWsGo l flag) := by
  intro l
  induction l with
  | nil => intro flag; cases flag <;> exact Reduces.nil
  | cons c cs ih =>
    intro flag
    cases flag
    · by_cases hc : c = ','
      · subst hc
        simpa [replCommaWsGo] using Reduces.space ',' (ih true)
      · simpa [replCommaWsGo, hc] using Reduces.keep c (ih false)
    · by_cases hw : jsSpace c = true
      · simpa [replCommaWsGo, hw] using Reduces.drop c (ih true)
      · by_cases hc : c = ','
        · subst hc
          simpa [replCommaWsGo, hw] using Reduces.space ',' (ih true)
        · simpa [replCommaWsGo, hw, hc] using Reduces.keep c (ih false)

/-- The backslash-n replacement is a reduction. -/
theorem reduces_replBackslashNGo :
    ∀ l : List Char, Reduces l (replBackslashNGo l false) ∧
      Reduces ('\\' :: l) (replBackslashNGo l true) := by
  intro l
  induction l with
  | nil => exact ⟨Reduces.nil, Reduces.keep '\\' Reduces.nil⟩
  | cons c cs ih =>
    constructor
    · by_cases hc : c = '\\'
      · subst hc
        simpa [replBackslashNGo] using ih.2
      · simpa [replBackslashNGo, hc] using Reduces.keep c ih.1
    · by_cases hn : c = 'n'
      · subst hn
        simpa [replBackslashNGo] using Reduces.space '\\' (Reduces.drop 'n' ih.1)
      · by_cases hc : c = '\\'
        · subst hc
          simpa [replBackslashNGo, hn] using Reduces.keep '\\' ih.2
        · simpa [replBackslashNGo, hn, hc] using
            Reduces.keep '\\' (Reduces.keep c ih.1)

/-- Whitespace collapsing is a reduction. -/
theorem reduces_collapseWsGo :
    ∀ (l : List Char) (flag : Bool), Reduces l (collapseWsGo l flag) := by
  intro l
  induction l with
  | nil => intro flag; cases flag <;> exact Reduces.nil
  | cons c cs ih =>
    intro flag
    cases flag
    · by_cases hw : jsSpace c = true
      · simpa [collapseWsGo, hw] using Reduces.space c (ih true)
      · simpa [collapseWsGo, hw] using Reduces.keep c (ih false)
    · by_cases hw : jsSpace c = true
      · simpa [collapseWsGo, hw] using Reduces.drop c (ih true)
      · simpa [collapseWsGo, hw] using Reduces.keep c (ih false)

/-- The quote-artifact removal is a reduction. -/
theorem reduces_removeQuotes : ∀ l : List Char, Reduces l (removeQuotes l) := by
  intro l
  induction l using removeQuotes.induct with
  | case1 cs ih => exact Reduces.drop '‚' (Reduces.drop 'Ä' (Reduces.drop 'û' ih))
  | case2 cs ih => exact Reduces.drop '"' ih
  | case3 c cs h1 h2 ih => simpa [removeQuotes] using Reduces.keep c ih
  | case4 => exact Reduces.nil

/-- Tag stripping is a reduction (the pending tag characters are accounted to
the source). -/
theorem reduces_stripTagsGo :
    ∀ l : List Char,
      (∀ acc : List Char, Reduces (acc.reverse ++ l) (stripTagsGo l (some acc))) ∧
      Reduces l (stripTagsGo l none) := by
  intro l
  induction l with
  | nil =>
    refine ⟨fun acc => ?_, Reduces.nil⟩
    rw [stripTagsGo, List.append_nil]
    exact Reduces.refl _
  | cons c cs ih =>
    constructor
    · intro acc
      by_cases hc : c = '>'
      · subst hc
        rw [stripTagsGo, if_pos rfl]
        exact Reduces.drop_append acc.reverse (Reduces.drop '>' ih.2)
      · rw [stripTagsGo, if_neg hc]
        have h2 := ih.1 (c :: acc)
        rw [List.reverse_cons, List.append_assoc, List.singleton_append] at h2
        exact h2
    · by_cases hc : c = '<'
      · subst hc
        rw [stripTagsGo, if_pos rfl]
        simpa using ih.1 ['<']
      · rw [stripTagsGo, if_neg hc]
        exact Reduces.keep c ih.2

/-- The comma replacement leaves no comma behind, from either state. -/
theorem no_comma_replCommaWsGo :
    ∀ (l : List Char) (flag : Bool), ',' ∉ replCommaWsGo l flag := by
  intro l
  induction l with
  | nil => intro flag; cases flag <;> simp [replCommaWsGo]
  | cons c cs ih =>
    intro flag
    cases flag
    · by_cases hc : c = ','
      · subst hc
        simpa [replCommaWsGo] using ih true
      · simp only [replCommaWsGo, if_neg hc]
        intro hmem
        rcases List.mem_cons.mp hmem with h | h
        · exact hc h.symm
        · exact ih false h
    · by_cases hw : jsSpace c = true
      · simpa [replCommaWsGo, hw] using ih true
      · by_cases hc : c = ','
        · subst hc
          simpa [replCommaWsGo, hw] using ih true
        · simp only [replCommaWsGo, hw, Bool.false_eq_true, if_false, if_neg hc]
          intro hmem
          rcases List.mem_cons.mp hmem with h | h
          · exact hc h.symm
          · exact ih false h

/-- In the fall-through case the quote removal keeps the head character. -/
theorem removeQuotes_cons_of_fallthrough (c : Char) (cs : List Char)
    (hno3 : ∀ cs1 : List Char, c = '‚' → cs = 'Ä' :: 'û' :: cs1 → False)
    (hnoq : c ≠ '"') :
    removeQuotes (c :: cs) = c :: removeQuotes cs := by
  rw [removeQuotes.eq_def]
  split
  · rename_i cs1 heq
    injection heq with hc hcs
    exact (hno3 cs1 hc hcs).elim
  · rename_i cs1 heq
    injection heq with hc hcs
    exact absurd hc hnoq
  · rename_i c1 cs1 hn1 hn2 heq
    injection heq with hc hcs
    rw [hc, hcs]
  · rename_i heq
    cases heq

/-- The quote removal leaves no plain double quote behind. -/
theorem no_quote_removeQuotes : ∀ l : List Char, '"' ∉ removeQuotes l := by
  intro l
  induction l using removeQuotes.induct with
  | case1 cs ih =>
    rw [show removeQuotes ('‚' :: 'Ä' :: 'û' :: cs) = removeQuotes cs from by
      rw [removeQuotes]]
    exact ih
  | case2 cs ih =>
    rw [show removeQuotes ('"' :: cs) = removeQuotes cs from by rw [removeQuotes]]
    exact ih
  | case3 c cs h1 h2 ih =>
    rw [removeQuotes_cons_of_fallthrough c cs h1 (fun hc => h2 hc)]
    intro hmem
    rcases List.mem_cons.mp hmem with h | h
    · exact h2 h.symm
    · exact ih h
  | case4 => simp [removeQuotes]

/-- A list without `>` has no complete tag. -/
theorem hasTag_eq_false_of_no_gt (l : List Char) (h : '>' ∉ l) :
    hasTag l = false := by
  induction l with
  | nil => rfl
  | cons c cs ih =>
    have hcs : '>' ∉ cs := fun hm => h (List.mem_cons_of_mem _ hm)
    have hany : cs.any (fun d => d == '>') = false := by
      cases hany : cs.any (fun d => d == '>')
      · rfl
      · rcases List.any_eq_true.mp hany with ⟨d, hd, hdeq⟩
        have hd' : d = '>' := by simpa using hdeq
        exact absurd (hd' ▸ hd) hcs
    rw [hasTag, ih hcs, hany]
    simp

/-- After an unmatched `<`, the scanner flushes the pending characters. -/
theorem stripTagsGo_no_gt (l : List Char) (hl : '>' ∉ l) :
    ∀ acc : List Char, stripTagsGo l (some acc) = acc.reverse ++ l := by
  induction l with
  | nil => intro acc; rw [stripTagsGo, List.append_nil]
  | cons c cs ih =>
    intro acc
    have hc : c ≠ '>' := fun h => hl (h ▸ List.mem_cons_self _ _)
    have hcs : '>' ∉ cs := fun hm => hl (List.mem_cons_of_mem _ hm)
    rw [stripTagsGo, if_neg hc, ih hcs, List.reverse_cons, List.append_assoc,
      List.singleton_append]

/-- The output of tag stripping has no complete tag left.  The pending
accumulator never holds a `>`. -/
theorem hasTag_stripTagsGo (l : List Char) :
    (∀ acc : List Char, '>' ∉ acc → hasTag (stripTagsGo l (some acc)) = false) ∧
    hasTag (stripTagsGo l none) = false := by
  induction l with
  | nil =>
    refine ⟨fun acc hacc => ?_, rfl⟩
    rw [stripTagsGo]
    exact hasTag_eq_false_of_no_gt _ (by simpa using hacc)
  | cons c cs ih =>
    constructor
    · intro acc hacc
      by_cases hc : c = '>'
      · subst hc
        rw [stripTagsGo, if_pos rfl]
        exact ih.2
      · rw [stripTagsGo, if_neg hc]
        exact ih.1 (c :: acc) (by
          intro hmem
          rcases List.mem_cons.mp hmem with h | h
          · exact hc h.symm
          · exact hacc h)
    · by_cases hc : c = '<'
      · subst hc
        rw [stripTagsGo, if_pos rfl]
        exact ih.1 ['<'] (by decide)
      · rw [stripTagsGo, if_neg hc, hasTag]
        rw [ih.2]
        have : (c == '<') = false := by simpa using hc
        simp [this]

/-- Without commas, the double-comma replacement is the identity. -/
theorem replDoubleCommaGo_id (l : List Char) (h : ',' ∉ l) :
    replDoubleCommaGo l false = l := by
  induction l with
  | nil => rfl
  | cons c cs ih =>
    have hc : c ≠ ',' := fun hcc => h (hcc ▸ List.mem_cons_self _ _)
    rw [replDoubleCommaGo, if_neg hc, ih fun hm => h (List.mem_cons_of_mem _ hm)]

/-- Without commas, the comma-whitespace replacement is the identity. -/
theorem replCommaWsGo_id (l : List Char) (h : ',' ∉ l) :
    replCommaWsGo l false = l := by
  induction l with
  | nil => rfl
  | cons c cs ih =>
    have hc : c ≠ ',' := fun hcc => h (hcc ▸ List.mem_cons_self _ _)
    rw [replCommaWsGo, if_neg hc, ih fun hm => h (List.mem_cons_of_mem _ hm)]

/-- Without the mojibake lead character and without plain quotes, the quote
removal is the identity. -/
theorem removeQuotes_id (l : List Char) (h1 : '‚' ∉ l) (h2 : '"' ∉ l) :
    removeQuotes l = l := by
  induction l using removeQuotes.induct with
  | case1 cs ih => exact absurd (List.mem_cons_self _ _) h1
  | case2 cs ih => exact absurd (List.mem_cons_self _ _) h2
  | case3 c cs hn1 hn2 ih =>
    have hc : c ≠ '"' := fun hcc => h2 (hcc ▸ List.mem_cons_self _ _)
    rw [removeQuotes_cons_of_fallthrough c cs hn1 hc,
      ih (fun hm => h1 (List.mem_cons_of_mem _ hm))
        (fun hm => h2 (List.mem_cons_of_mem _ hm))]
  | case4 => rfl

/-- Without backslashes, the backslash-n replacement is the identity. -/
theorem replBackslashNGo_id (l : List Char) (h : '\\' ∉ l) :
    replBackslashNGo l false = l := by
  induction l with
  | nil => rfl
  | cons c cs ih =>
    have hc : c ≠ '\\' := fun hcc => h (hcc ▸ List.mem_cons_self _ _)
    rw [replBackslashNGo, if_neg hc, ih fun hm => h (List.mem_cons_of_mem _ hm)]

/-- Without a complete tag, the tag stripping is the identity. -/
theorem stripTagsGo_id (l : List Char) (h : hasTag l = false) :
    stripTagsGo l none = l := by
  induction l with
  | nil => rfl
  | cons c cs ih =>
    rw [hasTag] at h
    have htail : hasTag cs = false := by
      cases hcs : hasTag cs
      · rfl
      · rw [hcs] at h
        simp at h
    by_cases hc : c = '<'
    · subst hc
      have hany : cs.any (fun d => d == '>') = false := by
        cases hany : cs.any (fun d => d == '>')
        · rfl
        · rw [hany] at h
          simp at h
      have hgt : '>' ∉ cs := by
        intro hm
        have : cs.any (fun d => d == '>') = true := List.any_eq_true.mpr ⟨'>', hm, by simp⟩
        rw [this] at hany
        cases hany
      rw [stripTagsGo, if_pos rfl, stripTagsGo_no_gt cs hgt]
      rfl
    · rw [stripTagsGo, if_neg hc, ih htail]

/-- The last element of a one-element list. -/
theorem getLast?_one (c : Char) : [c].getLast? = some c := rfl

/-- Prepending a non-whitespace character preserves adjacency-freedom. -/
theorem noAdjWs_cons_of_not_ws {c : Char} (hc : jsSpace c = false)
    {r : List Char} (hr : noAdjWs r = true) : noAdjWs (c :: r) = true := by
  cases r with
  | nil => rfl
  | cons d t => simp [noAdjWs, hc, hr]

/-- Prepending a space before a non-whitespace head preserves
adjacency-freedom. -/
theorem noAdjWs_space_cons {r : List Char} (hh : headNotWs r = true)
    (hr : noAdjWs r = true) : noAdjWs (' ' :: r) = true := by
  cases r with
  | nil => rfl
  | cons d t =>
    have hd : jsSpace d = false := by simpa [headNotWs] using hh
    simp [noAdjWs, hd, hr]

/-- Adjacency-freedom passes to the tail. -/
theorem noAdjWs_tail {c : Char} {r : List Char} (h : noAdjWs (c :: r) = true) :
    noAdjWs r = true := by
  cases r with
  | nil => rfl
  | cons d t =>
    rw [noAdjWs, Bool.and_eq_true] at h
    exact h.2

/-- After a whitespace character, an adjacency-free list continues with a
non-whitespace character. -/
theorem headNotWs_of_noAdjWs_ws {c : Char} {r : List Char} (hc : jsSpace c = true)
    (h : noAdjWs (c :: r) = true) : headNotWs r = true := by
  cases r with
  | nil => rfl
  | cons d t =>
    rw [noAdjWs, Bool.and_eq_true] at h
    have h1 := h.1
    rw [hc] at h1
    simpa [headNotWs] using h1

/-- Collapsed output only contains plain spaces as whitespace. -/
theorem allWsSpace_collapseWsGo :
    ∀ (l : List Char) (flag : Bool), allWsSpace (collapseWsGo l flag) = true := by
  intro l
  induction l with
  | nil => intro flag; cases flag <;> rfl
  | cons c cs ih =>
    intro flag
    by_cases hw : jsSpace c = true
    · cases flag
      · rw [show collapseWsGo (c :: cs) false = ' ' :: collapseWsGo cs true from by
          simp [collapseWsGo, hw]]
        simpa [allWsSpace] using ih true
      · rw [show collapseWsGo (c :: cs) true = collapseWsGo cs true from by
          simp [collapseWsGo, hw]]
        exact ih true
    · have hw' : jsSpace c = false := by simpa using hw
      cases flag
      · rw [show collapseWsGo (c :: cs) false = c :: collapseWsGo cs false from by
          simp [collapseWsGo, hw]]
        simpa [allWsSpace, hw'] using ih false
      · rw [show collapseWsGo (c :: cs) true = c :: collapseWsGo cs false from by
          simp [collapseWsGo, hw]]
        simpa [allWsSpace, hw'] using ih false

/-- Collapsed output is adjacency-free, and from the skipping state it starts
with a non-whitespace character. -/
theorem collapseWsGo_shape :
    ∀ l : List Char,
      headNotWs (collapseWsGo l true) = true ∧
      noAdjWs (collapseWsGo l true) = true ∧
      noAdjWs (collapseWsGo l false) = true := by
  intro l
  induction l with
  | nil => exact ⟨rfl, rfl, rfl⟩
  | cons c cs ih =>
    obtain ⟨ih1, ih2, ih3⟩ := ih
    by_cases hw : jsSpace c = true
    · refine ⟨?_, ?_, ?_⟩
      · rw [show collapseWsGo (c :: cs) true = collapseWsGo cs true from by
          simp [collapseWsGo, hw]]
        exact ih1
      · rw [show collapseWsGo (c :: cs) true = collapseWsGo cs true from by
          simp [collapseWsGo, hw]]
        exact ih2
      · rw [show collapseWsGo (c :: cs) false = ' ' :: collapseWsGo cs true from by
          simp [collapseWsGo, hw]]
        exact noAdjWs_space_cons ih1 ih2
    · have hw' : jsSpace c = false := by simpa using hw
      refine ⟨?_, ?_, ?_⟩
      · rw [show collapseWsGo (c :: cs) true = c :: collapseWsGo cs false from by
          simp [collapseWsGo, hw]]
        simp [headNotWs, hw']
      · rw [show collapseWsGo (c :: cs) true = c :: collapseWsGo cs false from by
          simp [collapseWsGo, hw]]
        exact noAdjWs_cons_of_not_ws hw' ih3
      · rw [show collapseWsGo (c :: cs) false = c :: collapseWsGo cs false from by
          simp [collapseWsGo, hw]]
        exact noAdjWs_cons_of_not_ws hw' ih3

/-- On space-normal, adjacency-free input the collapser is the identity. -/
theorem collapseWsGo_id :
    ∀ l : List Char,
      (allWsSpace l = true → noAdjWs l = true → collapseWsGo l false = l) ∧
      (allWsSpace l = true → noAdjWs l = true → headNotWs l = true →
        collapseWsGo l true = l) := by
  intro l
  induction l with
  | nil => exact ⟨fun _ _ => rfl, fun _ _ _ => rfl⟩
  | cons c cs ih =>
    have htail : allWsSpace (c :: cs) = true → allWsSpace cs = true := by
      intro hall
      rw [allWsSpace, List.all_cons, Bool.and_eq_true] at hall
      exact hall.2
    constructor
    · intro hall hadj
      by_cases hw : jsSpace c = true
      · have hcsp : c = ' ' := by
          rw [allWsSpace, List.all_cons, Bool.and_eq_true] at hall
          have h1 := hall.1
          rw [hw] at h1
          simpa using h1
        rw [show collapseWsGo (c :: cs) false = ' ' :: collapseWsGo cs true from by
          simp [collapseWsGo, hw]]
        rw [ih.2 (htail hall) (noAdjWs_tail hadj) (headNotWs_of_noAdjWs_ws hw hadj),
          hcsp]
      · rw [show collapseWsGo (c :: cs) false = c :: collapseWsGo cs false from by
          simp [collapseWsGo, hw]]
        rw [ih.1 (htail hall) (noAdjWs_tail hadj)]
    · intro hall hadj hhead
      have hw : jsSpace c = false := by simpa [headNotWs] using hhead
      rw [show collapseWsGo (c :: cs) true = c :: collapseWsGo cs false from by
        simp [collapseWsGo, hw]]
      rw [ih.1 (htail hall) (noAdjWs_tail hadj)]

/-- A non-whitespace head survives the whitespace prefix drop. -/
theorem dropWhile_id_of_headNotWs (l : List Char) (h : headNotWs l = true) :
    l.dropWhile jsSpace = l := by
  cases l with
  | nil => rfl
  | cons c cs =>
    have hw : jsSpace c = false := by simpa [headNotWs] using h
    rw [List.dropWhile_cons, hw]
    simp

/-- The last-character predicate ignores a prepended head when the tail is
non-empty. -/
theorem lastNotWs_cons_of_ne (c : Char) (r : List Char) (h : r ≠ []) :
    lastNotWs (c :: r) = lastNotWs r := by
  cases r with
  | nil => exact absurd rfl h
  | cons d t => rw [lastNotWs, lastNotWs, List.getLast?_cons_cons]

/-- With a non-whitespace last character, the trailing drop is the identity. -/
theorem dropTrailingWs_id (l : List Char) (h : lastNotWs l = true) :
    dropTrailingWs l = l := by
  induction l with
  | nil => rfl
  | cons c cs ih =>
    cases cs with
    | nil =>
      have hw : jsSpace c = false := by simpa [lastNotWs, getLast?_one] using h
      simp [dropTrailingWs, hw]
    | cons d t =>
      have hlast : lastNotWs (d :: t) = true := by
        rw [← lastNotWs_cons_of_ne c (d :: t) (by simp)]
        exact h
      rw [dropTrailingWs, ih hlast]

/-- A trimmed-looking list is untouched by trimming. -/
theorem trimChars_id (l : List Char) (hh : headNotWs l = true)
    (hl : lastNotWs l = true) : trimChars l = l := by
  rw [trimChars, dropWhile_id_of_headNotWs l hh, dropTrailingWs_id l hl]

/-- Dropping the whitespace prefix leaves a non-whitespace head. -/
theorem headNotWs_dropWhile (l : List Char) :
    headNotWs (l.dropWhile jsSpace) = true := by
  induction l with
  | nil => rfl
  | cons c cs ih =>
    rw [List.dropWhile_cons]
    by_cases hw : jsSpace c = true
    · rw [if_pos hw]
      exact ih
    · rw [if_neg hw]
      have hw' : jsSpace c = false := by simpa using hw
      simp [headNotWs, hw']

/-- The trailing drop preserves a non-whitespace head. -/
theorem headNotWs_dropTrailingWs (l : List Char) (h : headNotWs l = true) :
    headNotWs (dropTrailingWs l) = true := by
  cases l with
  | nil => rfl
  | cons c cs =>
    have hw : jsSpace c = false := by simpa [headNotWs] using h
    rcases hr : dropTrailingWs cs with _ | ⟨d, t⟩ <;>
      rw [dropTrailingWs, hr] <;> simp [headNotWs, hw]

/-- The trailing drop leaves a non-whitespace last character. -/
theorem lastNotWs_dropTrailingWs (l : List Char) :
    lastNotWs (dropTrailingWs l) = true := by
  induction l with
  | nil => rfl
  | cons c cs ih =>
    rcases hr : dropTrailingWs cs with _ | ⟨d, t⟩
    · rw [dropTrailingWs, hr]
      by_cases hw : jsSpace c = true
      · simp [hw, lastNotWs]
      · have hw' : jsSpace c = false := by simpa using hw
        simp [hw', lastNotWs, getLast?_one]
    · rw [dropTrailingWs, hr]
      rw [lastNotWs_cons_of_ne c (d :: t) (by simp), ← hr]
      exact ih

/-- Trimming yields a non-whitespace head and last character. -/
theorem trimChars_shape (l : List Char) :
    headNotWs (trimChars l) = true ∧ lastNotWs (trimChars l) = true :=
  ⟨headNotWs_dropTrailingWs _ (headNotWs_dropWhile l), lastNotWs_dropTrailingWs _⟩

/-- The collapser preserves a non-whitespace head. -/
theorem headNotWs_collapseWsGo (l : List Char) (h : headNotWs l = true) :
    headNotWs (collapseWsGo l false) = true := by
  cases l with
  | nil => rfl
  | cons c cs =>
    have hw : jsSpace c = false := by simpa [headNotWs] using h
    rw [show collapseWsGo (c :: cs) false = c :: collapseWsGo cs false from by
      simp [collapseWsGo, hw]]
    simp [headNotWs, hw]

/-- The collapser keeps a list with a non-whitespace last character
non-empty. -/
theorem collapseWsGo_ne_nil :
    ∀ (l : List Char) (flag : Bool), l ≠ [] → lastNotWs l = true →
      collapseWsGo l flag ≠ [] := by
  intro l
  induction l with
  | nil => intro flag h _; exact absurd rfl h
  | cons c cs ih =>
    intro flag _ hlast
    cases cs with
    | nil =>
      have hw : jsSpace c = false := by simpa [lastNotWs, getLast?_one] using hlast
      cases flag <;> simp [collapseWsGo, hw]
    | cons d t =>
      have hlast' : lastNotWs (d :: t) = true := by
        rw [← lastNotWs_cons_of_ne c (d :: t) (by simp)]
        exact hlast
      by_cases hw : jsSpace c = true
      · cases flag
        · simp [collapseWsGo, hw]
        · rw [show collapseWsGo (c :: d :: t) true = collapseWsGo (d :: t) true from by
            simp [collapseWsGo, hw]]
          exact ih true (by simp) hlast'
      · cases flag <;> simp [collapseWsGo, hw]

/-- The collapser preserves a non-whitespace last character. -/
theorem lastNotWs_collapseWsGo :
    ∀ (l : List Char) (flag : Bool), lastNotWs l = true →
      lastNotWs (collapseWsGo l flag) = true := by
  intro l
  induction l with
  | nil => intro flag _; cases flag <;> rfl
  | cons c cs ih =>
    intro flag hlast
    cases cs with
    | nil =>
      have hw : jsSpace c = false := by simpa [lastNotWs, getLast?_one] using hlast
      cases flag <;> simp [collapseWsGo, hw, lastNotWs, getLast?_one]
    | cons d t =>
      have hlast' : lastNotWs (d :: t) = true := by
        rw [← lastNotWs_cons_of_ne c (d :: t) (by simp)]
        exact hlast
      have hne : collapseWsGo (d :: t) true ≠ [] :=
        collapseWsGo_ne_nil (d :: t) true (by simp) hlast'
      have hne' : collapseWsGo (d :: t) false ≠ [] :=
        collapseWsGo_ne_nil (d :: t) false (by simp) hlast'
      by_cases hw : jsSpace c = true
      · cases flag
        · rw [show collapseWsGo (c :: d :: t) false =
              ' ' :: collapseWsGo (d :: t) true from by simp [collapseWsGo, hw]]
          rw [lastNotWs_cons_of_ne _ _ hne]
          exact ih true hlast'
        · rw [show collapseWsGo (c :: d :: t) true = collapseWsGo (d :: t) true from by
            simp [collapseWsGo, hw]]
          exact ih true hlast'
      · cases flag
        · rw [show collapseWsGo (c :: d :: t) false =
              c :: collapseWsGo (d :: t) false from by simp [collapseWsGo, hw]]
          rw [lastNotWs_cons_of_ne _ _ hne']
          exact ih false hlast'
        · rw [show collapseWsGo (c :: d :: t) true =
              c :: collapseWsGo (d :: t) false from by simp [collapseWsGo, hw]]
          rw [lastNotWs_cons_of_ne _ _ hne']
          exact ih false hlast'

/-- Bracket removal is a reduction. -/
theorem reduces_removeBrackets (l : List Char) : Reduces l (removeBrackets l) :=
  reduces_filter _ l

/-- Backslash removal is a reduction. -/
theorem reduces_removeBackslash (l : List Char) : Reduces l (removeBackslash l) :=
  reduces_filter _ l

/-- The basic cleanup is a reduction. -/
theorem reduces_cleanupBasic (l : List Char) : Reduces l (cleanupBasic l) :=
  ((reduces_replDoubleCommaGo l).1.trans (reduces_replCommaWsGo _ false)).trans
    ((reduces_removeQuotes _).trans (reduces_removeBrackets _))

/-- Reduction preserves the absence of a complete tag. -/
theorem hasTag_false_of_reduces {l l' : List Char} (h : Reduces l l')
    (hl : hasTag l = false) : hasTag l' = false := by
  cases ht : hasTag l'
  · rfl
  · exact absurd (h.hasTag_mono ht) (by simp [hl])

/-- Bracket removal leaves no brackets. -/
theorem no_bracket_removeBrackets (l : List Char) :
    '[' ∉ removeBrackets l ∧ ']' ∉ removeBrackets l := by
  constructor <;> intro hmem <;> have := List.of_mem_filter hmem <;> simp at this

/-- Backslash removal leaves no backslash. -/
theorem no_backslash_removeBackslash (l : List Char) :
    '\\' ∉ removeBackslash l := by
  intro hmem
  have := List.of_mem_filter hmem
  simp at this

/-- Without brackets, the bracket removal is the identity. -/
theorem removeBrackets_id (l : List Char) (h1 : '[' ∉ l) (h2 : ']' ∉ l) :
    removeBrackets l = l := by
  apply List.filter_eq_self.mpr
  intro c hc
  simp only [Bool.not_eq_true', Bool.or_eq_false_iff]
  constructor
  · exact decide_eq_false fun e => h1 (e ▸ hc)
  · exact decide_eq_false fun e => h2 (e ▸ hc)

/-- Without backslashes, the backslash removal is the identity. -/
theorem removeBackslash_id (l : List Char) (h : '\\' ∉ l) :
    removeBackslash l = l := by
  apply List.filter_eq_self.mpr
  intro c hc
  simp only [Bool.not_eq_true']
  exact decide_eq_false fun e => h (e ▸ hc)

/-- The seo-description cleanup composed after the basic cleanup reaches a
fixed point after one application, provided the input does not contain the
lead character U+201A of the quote-artifact sequence.  (Without that
restriction the claim fails: deletions can assemble a new `‚Äû` occurrence
after the final quote-removal stage has run.) -/
theorem seoCleanList_fixpoint (lin : List Char) (hq : '‚' ∉ lin) :
    seoCleanList (cleanupBasic (seoCleanList (cleanupBasic lin))) =
      seoCleanList (cleanupBasic lin) := by
  -- stage names for the first pass
  set a1 := replDoubleComma lin with ha1
  set a2 := replCommaWs a1 with ha2
  set a3 := removeQuotes a2 with ha3
  set a4 := removeBrackets a3 with ha4
  set b1 := stripTags a4 with hb1
  set b2 := replBackslashN b1 with hb2
  set b3 := removeBackslash b2 with hb3
  set c1 := replDoubleComma b3 with hc1
  set c2 := replCommaWs c1 with hc2
  set c3 := removeQuotes c2 with hc3
  set c4 := removeBrackets c3 with hc4
  set Y := trimChars c4 with hY
  set Z := collapseWs Y with hZ
  have hZdef : seoCleanList (cleanupBasic lin) = Z := rfl
  -- single reduction steps
  have r12 : Reduces a1 a2 := reduces_replCommaWsGo a1 false
  have r23 : Reduces a2 a3 := reduces_removeQuotes a2
  have r34 : Reduces a3 a4 := reduces_removeBrackets a3
  have r4b1 : Reduces a4 b1 := (reduces_stripTagsGo a4).2
  have rb12 : Reduces b1 b2 := (reduces_replBackslashNGo b1).1
  have rb23 : Reduces b2 b3 := reduces_removeBackslash b2
  have rb3c1 : Reduces b3 c1 := (reduces_replDoubleCommaGo b3).1
  have rc12 : Reduces c1 c2 := reduces_replCommaWsGo c1 false
  have rc23 : Reduces c2 c3 := reduces_removeQuotes c2
  have rc34 : Reduces c3 c4 := reduces_removeBrackets c3
  have rc4Y : Reduces c4 Y := reduces_trimChars c4
  have rYZ : Reduces Y Z := reduces_collapseWsGo Y false
  -- composed reductions down to Z
  have rc4Z : Reduces c4 Z := rc4Y.trans rYZ
  have rc3Z : Reduces c3 Z := rc34.trans rc4Z
  have rc2Z : Reduces c2 Z := rc23.trans rc3Z
  have rc1Z : Reduces c1 Z := rc12.trans rc2Z
  have rb3Z : Reduces b3 Z := rb3c1.trans rc1Z
  have rlinZ : Reduces lin Z :=
    (((reduces_replDoubleCommaGo lin).1.trans r12).trans
      ((r23.trans r34).trans (r4b1.trans (rb12.trans rb23))))|>.trans rb3Z
  -- character absences on Z
  have hcomma : ',' ∉ Z := rc2Z.not_mem (by decide) (no_comma_replCommaWsGo c1 false)
  have hquote : '"' ∉ Z := rc3Z.not_mem (by decide) (no_quote_removeQuotes c2)
  have hlowq : '‚' ∉ Z := rlinZ.not_mem (by decide) hq
  have hlb : '[' ∉ Z := rc4Z.not_mem (by decide) (no_bracket_removeBrackets c3).1
  have hrb : ']' ∉ Z := rc4Z.not_mem (by decide) (no_bracket_removeBrackets c3).2
  have hbs : '\\' ∉ Z := rb3Z.not_mem (by decide) (no_backslash_removeBackslash b2)
  have htag : hasTag Z = false :=
    hasTag_false_of_reduces (rb12.trans (rb23.trans rb3Z)) (hasTag_stripTagsGo a4).2
  -- shape of Z
  have hallws : allWsSpace Z = true := allWsSpace_collapseWsGo Y false
  have hadj : noAdjWs Z = true := (collapseWsGo_shape Y).2.2
  have hhead : headNotWs Z = true := headNotWs_collapseWsGo Y (trimChars_shape c4).1
  have hlast : lastNotWs Z = true := lastNotWs_collapseWsGo Y false (trimChars_shape c4).2
  -- the second pass is the identity, stage by stage
  have e1 : replDoubleComma Z = Z := replDoubleCommaGo_id Z hcomma
  have e2 : replCommaWs Z = Z := replCommaWsGo_id Z hcomma
  have e3 : removeQuotes Z = Z := removeQuotes_id Z hlowq hquote
  have e4 : removeBrackets Z = Z := removeBrackets_id Z hlb hrb
  have ecb : cleanupBasic Z = Z := by
    show removeBrackets (removeQuotes (replCommaWs (replDoubleComma Z))) = Z
    rw [e1, e2, e3, e4]
  have e5 : stripTags Z = Z := stripTagsGo_id Z htag
  have e6 : replBackslashN Z = Z := replBackslashNGo_id Z hbs
  have e7 : removeBackslash Z = Z := removeBackslash_id Z hbs
  have e8 : trimChars Z = Z := trimChars_id Z hhead hlast
  have e9 : collapseWs Z = Z := (collapseWsGo_id Z).1 hallws hadj
  calc seoCleanList (cleanupBasic Z)
      = seoCleanList Z := by rw [ecb]
    _ = collapseWs (trimChars (cleanupBasic (removeBackslash (replBackslashN
          (stripTags Z))))) := rfl
    _ = Z := by rw [e5, e6, e7, ecb, e8, e9]

/-- Claim C9, counterexample.  The seo-description cleanup is not idempotent:
on the eight-character input `‚Ä\‚Ä\ûû`, the first pass removes the
backslashes and then the quote-artifact stage of the same pass reassembles a
fresh `‚Äû` sequence, so the first pass returns `"‚Äû"` while the second pass
deletes it and returns `""`. -/
theorem claim9_counterexample :
    getGeneratedText
        (.str (getGeneratedText (.str "‚Ä\\‚Ä\\ûû") "seo-description" "seo-description"))
        "seo-description" "seo-description" ≠
      getGeneratedText (.str "‚Ä\\‚Ä\\ûû") "seo-description" "seo-description" := by
  decide

/-- Claim C9, amended.  For every input string that does not contain the
character U+201A (the lead byte of the mojibake quote sequence the cleanup
removes) — in particular for ordinary inputs with embedded markup tags and
escaped newline sequences — applying the seo-description cleanup twice yields
the same string as applying it once. -/
theorem claim9_seo_idempotent (s ct : String) (h : '‚' ∉ s.toList) :
    getGeneratedText (.str (getGeneratedText (.str s) "seo-description" ct))
        "seo-description" ct =
      getGeneratedText (.str s) "seo-description" ct := by
  simp only [getGeneratedText, extractText]
  rw [if_pos (by simp), if_pos (by simp)]
  show String.mk (seoCleanList (cleanupBasic
      (String.mk (seoCleanList (cleanupBasic s.toList))).toList)) = _
  have hmk : (String.mk (seoCleanList (cleanupBasic s.toList))).toList =
      seoCleanList (cleanupBasic s.toList) := rfl
  rw [hmk, seoCleanList_fixpoint s.toList h]

/-- Witness for claim C9 at a concrete input containing markup tags, an
escaped newline sequence, quote artifacts, commas and brackets. -/
theorem claim9_seo_idempotent_witness :
    '‚' ∉ ("<p>Hello,,  world</p>\\n \"quoted\" [x]" : String).toList ∧
    getGeneratedText
        (.str (getGeneratedText (.str "<p>Hello,,  world</p>\\n \"quoted\" [x]")
          "seo-description" "seo-description"))
        "seo-description" "seo-description" =
      getGeneratedText (.str "<p>Hello,,  world</p>\\n \"quoted\" [x]")
        "seo-description" "seo-description" :=
  ⟨by decide, claim9_seo_idempotent "<p>Hello,,  world</p>\\n \"quoted\" [x]"
    "seo-description" (by decide)⟩

end AiDescriber
